import Mathlib

/-!
# opencvx: PCA subspace likelihood (`cvpcadiffs.h`) and rectangle conversions (`cvrect32f.h`)

Shallow embedding of `cvMatPcaDiffs` and `cvPcaDiffs`, and of the conversions
`cvBox32fFromRect32f` and `cvRect32fFromBox32f`.

Conventions of the embedding

* The routines are written once, over an arbitrary field `R` of scalars and a
  record `MathLib R` holding the `math.h` routines they call (`sqrt`, `log`,
  `exp`, `pow`, `M_PI`).  The theorems instantiate `R` with the real numbers
  and the record in two ways.  `realMath` holds the exact routines: `double`
  arithmetic is idealised (no rounding, no `NaN`/`Inf`).  `doubleMath` holds
  the routines rounded to the nearest `double`, with gradual underflow; it is
  used where a statement depends on rounding or on the underflow of `exp`.
* Neither instance represents `NaN` or infinities.  Statements about values
  carry the hypotheses under which the C program produces none: positive
  eigenvalues under `sqrt`, a non-zero (or positive) `rho` under the division,
  and, where a bound or an order on the values is stated, sums of squares
  below the overflow threshold.
* A `CvMat` is its row count, its column count and its cells.  The element
  type tag and the memory layout are not represented; of the tests of
  `CV_IS_MAT` only the one on the dimensions can fail.
* Mutable locals become explicit state: every `for` loop of the source is a
  `forLoop` whose state is the matrix (or accumulator) the loop writes.
* The primitives of the external numeric library (`cvCreateMat`, `cvZero`,
  `cvmGet`, `cvmSet`, `cvGetRow`, `cvGetCol`, `cvCopy`, `cvNorm`, `cvAvg`,
  `cvProjectPCA`) are not part of the repository; they are modelled from the
  specification, which describes them as matrix creation, element access,
  Euclidean norm, average and projection onto the retained basis after
  mean-centring.  The temporaries of the routine may have a zero dimension
  (`rLambda` when `nEig = M`).
* A call that raises an error is represented by its status code; the buffer
  `probs` is threaded through the call so that what a failed call leaves in it
  can be stated.
* In the conversions the library routine `cv2DRotationMatrix` is a parameter;
  `float` coordinates are idealised like `double`.
-/

open Finset

namespace PcaDiffs

/-- The `math.h` routines used by the estimator, over the scalar type `R`. -/
structure MathLib (R : Type) where
  sqrt : R → R
  log : R → R
  exp : R → R
  M_PI : R
  pow : R → ℕ → R

/-- Error status left by a call (`CV_StsOk`, or the code raised through `cvError`). -/
inductive CvStatus where
  | StsOk
  | StsInternal
  deriving DecidableEq, Repr

/-- Dense single-channel matrix: `rows`, `cols` and the cell at `(row, col)`. -/
structure CvMat (R : Type) where
  rows : ℕ
  cols : ℕ
  data : ℕ → ℕ → R

section Primitives

variable {R : Type} [Field R]

/-- `for( i = 0; i < n; i++ ) body`, threading the state the body updates. -/
def forLoop {σ : Type} : ℕ → (ℕ → σ → σ) → σ → σ
  | 0, _, s => s
  | k + 1, body, s => body k (forLoop k body s)

/-- Modelled from the spec: matrix creation of the external numeric library,
`cvCreateMat( rows, cols, type )`.  The cells of a fresh matrix are not meaningful until
written; the routine reads none of them before writing it. -/
def cvCreateMat (rows cols : ℕ) : CvMat R := ⟨rows, cols, fun _ _ => 0⟩

/-- Modelled from the spec: `cvZero( mat )` of the external numeric library. -/
def cvZero (mat : CvMat R) : CvMat R := { mat with data := fun _ _ => 0 }

/-- Modelled from the spec: element read of the external numeric library,
`cvmGet( mat, row, col )`. -/
def cvmGet (mat : CvMat R) (row col : ℕ) : R := mat.data row col

/-- Modelled from the spec: element write of the external numeric library,
`cvmSet( mat, row, col, value )`. -/
def cvmSet (mat : CvMat R) (row col : ℕ) (value : R) : CvMat R :=
  { mat with data := fun i j => if i = row ∧ j = col then value else mat.data i j }

/-- Modelled from the spec: `cvGetRow( mat, submat, row )` of the external numeric
library, the `1 x cols` view of one row. -/
def cvGetRow (mat : CvMat R) (row : ℕ) : CvMat R :=
  ⟨1, mat.cols, fun i j => mat.data (row + i) j⟩

/-- Modelled from the spec: `cvGetCol( mat, submat, col )` of the external numeric
library, the `rows x 1` view of one column. -/
def cvGetCol (mat : CvMat R) (col : ℕ) : CvMat R :=
  ⟨mat.rows, 1, fun i j => mat.data i (col + j)⟩

/-- Modelled from the spec: `cvCopy( src, dst )` of the external numeric library, into a
destination of the same shape. -/
def cvCopy (src : CvMat R) : CvMat R := src

/-- Modelled from the spec: the Euclidean norm of the external numeric library,
`cvNorm( mat, NULL, CV_L2 )`: square root of the sum of the squared cells. -/
def cvNorm (lm : MathLib R) (mat : CvMat R) : R :=
  lm.sqrt (∑ i ∈ range mat.rows, ∑ j ∈ range mat.cols, mat.data i j ^ 2)

/-- Modelled from the spec: the average of the external numeric library,
`cvAvg( mat ).val[0]`: arithmetic mean of the cells. -/
def cvAvg (mat : CvMat R) : R :=
  (∑ i ∈ range mat.rows, ∑ j ∈ range mat.cols, mat.data i j) / ((mat.rows * mat.cols : ℕ) : R)

/-- Modelled from the spec: the external PCA projection primitive `cvProjectPCA`
(not part of the repository).  With `data` holding one sample per column and
`avg` a column vector, row `n` of the result holds the coordinates of sample `n`:
the dot product of each eigenvector row with the mean-centred sample. -/
def cvProjectPCA (data avg eigenvects result : CvMat R) : CvMat R :=
  { result with
    data := fun n d => ∑ j ∈ range data.rows, (data.data j n - avg.data j 0) * eigenvects.data d j }

end Primitives

section Estimator

variable {R : Type} [Field R]

/-- Lines 131-150 of `cvpcadiffs.h` (`// distance in feature space`): from the
incoming `DIFS` and `normterm`, the values they hold after the block. -/
def distanceInFeatureSpace (lm : MathLib R) (eigenvalues proj : CvMat R) (N M : ℕ)
    (normalize : Bool) (DIFS : CvMat R) (normterm : R) : CvMat R × R :=
  if M > 0 then
    let sqrt_pLambda : CvMat R :=
      forLoop M (fun d m => cvmSet m d 0 (lm.sqrt (cvmGet eigenvalues d 0))) (cvCreateMat M 1)
    let DIFS : CvMat R :=
      forLoop N (fun n DIFS =>
        let subproj := cvGetRow proj n
        let scsubproj := cvCopy subproj
        let scsubproj :=
          forLoop M (fun d sc => cvmSet sc 0 d (cvmGet sc 0 d / cvmGet sqrt_pLambda d 0)) scsubproj
        cvmSet DIFS 0 n (lm.pow (cvNorm lm scsubproj) 2)) DIFS
    let normterm : R :=
      if normalize then
        forLoop M (fun d nt => nt + lm.log (cvmGet sqrt_pLambda d 0)) normterm
          + lm.log (2 * lm.M_PI) * ((M : R) / 2)
      else normterm
    (DIFS, normterm)
  else (DIFS, normterm)

/-- Lines 152-174 of `cvpcadiffs.h` (`// distance from feature space`): from the
incoming `DFFS` and `normterm`, the values they hold after the block. -/
def distanceFromFeatureSpace (lm : MathLib R) (samples avg eigenvalues proj : CvMat R)
    (D N M nEig : ℕ) (normalize : Bool) (DFFS : CvMat R) (normterm : R) : CvMat R × R :=
  if nEig > M then
    let samples0 : CvMat R :=
      forLoop N (fun n s0 =>
        forLoop D (fun d s0 => cvmSet s0 d n (cvmGet samples d n - cvmGet avg d 0)) s0)
        (cvCreateMat D N)
    let DFFS : CvMat R :=
      forLoop N (fun n DFFS =>
        let subsamples0 := cvGetCol samples0 n
        let subproj := cvGetRow proj n
        cvmSet DFFS 0 n (lm.pow (cvNorm lm subsamples0) 2 - lm.pow (cvNorm lm subproj) 2)) DFFS
    let rLambda : CvMat R :=
      forLoop (nEig - M) (fun d r => cvmSet r d 0 (cvmGet eigenvalues (d + M) 0))
        (cvCreateMat (nEig - M) 1)
    let rho : R := cvAvg rLambda
    let DFFS : CvMat R :=
      forLoop N (fun n DFFS => cvmSet DFFS 0 n (cvmGet DFFS 0 n / rho)) DFFS
    let normterm : R :=
      if normalize then
        normterm + lm.log (2 * lm.M_PI * rho) * (((nEig - M : ℕ) : R) / 2)
      else normterm
    (DFFS, normterm)
  else (DFFS, normterm)

/-- Lines 176-184 of `cvpcadiffs.h` (`// logp sum` and the optional `exp`). -/
def logpSum (lm : MathLib R) (N : ℕ) (DIFS DFFS : CvMat R) (normterm : R) (logprob : Bool)
    (probs : CvMat R) : CvMat R :=
  let probs : CvMat R :=
    forLoop N (fun n p =>
      cvmSet p 0 n (cvmGet DIFS 0 n / (-2) + cvmGet DFFS 0 n / (-2) - normterm)) probs
  if !logprob then
    forLoop N (fun n p => cvmSet p 0 n (lm.exp (cvmGet p 0 n))) probs
  else probs

/-- What the body of `cvMatPcaDiffs` leaves in the locals `DIFS`, `DFFS`, `normterm`
and in the caller's buffer `probs`. -/
structure Locals (R : Type) where
  DIFS : CvMat R
  DFFS : CvMat R
  normterm : R
  probs : CvMat R

/-- Lines 127-184 of `cvpcadiffs.h`: the body of `cvMatPcaDiffs` once the assertions
have passed. -/
def cvMatPcaDiffsBody (lm : MathLib R) (samples avg eigenvalues eigenvectors probs : CvMat R)
    (normalize logprob : Bool) : Locals R :=
  let D := samples.rows
  let N := samples.cols
  let M := eigenvectors.rows
  let nEig := eigenvalues.rows
  let normterm : R := 0
  let DIFS : CvMat R := cvZero (cvCreateMat 1 N)
  let DFFS : CvMat R := cvZero (cvCreateMat 1 N)
  let proj : CvMat R := cvProjectPCA samples avg eigenvectors (cvCreateMat N M)
  let s1 := distanceInFeatureSpace lm eigenvalues proj N M normalize DIFS normterm
  let s2 := distanceFromFeatureSpace lm samples avg eigenvalues proj D N M nEig normalize DFFS s1.2
  ⟨s1.1, s2.1, s2.2, logpSum lm N s1.1 s2.1 s2.2 logprob probs⟩

/-- The macro `CV_IS_MAT( mat )` of the headers of the external library, which are not
part of the repository: a matrix header is valid when its two dimensions are positive (its
signature and its data pointer, which the macro also tests, are in order for every value
of `CvMat`). -/
@[reducible] def CV_IS_MAT (mat : CvMat R) : Prop := 0 < mat.rows ∧ 0 < mat.cols

/-- `cvMatPcaDiffs( samples, avg, eigenvalues, eigenvectors, probs, normalize, logprob )`.
Returns the error status of the call and the contents of the caller's buffer
`probs` when the call ends.

The seven `CV_ASSERT`s of lines 119-125 are tested in the order of the source; a failed
`CV_ASSERT` raises `CV_StsInternal` and leaves the function at once.  The allocation of
the temporaries (lines 107-115) is not a point of failure of the embedding. -/
def cvMatPcaDiffs (lm : MathLib R) (samples avg eigenvalues eigenvectors probs : CvMat R)
    (normalize logprob : Bool) : CvStatus × CvMat R :=
  let D := samples.rows
  let N := samples.cols
  if ¬ CV_IS_MAT samples then (CvStatus.StsInternal, probs)
  else if ¬ CV_IS_MAT avg then (CvStatus.StsInternal, probs)
  else if ¬ CV_IS_MAT eigenvalues then (CvStatus.StsInternal, probs)
  else if ¬ CV_IS_MAT eigenvectors then (CvStatus.StsInternal, probs)
  else if ¬ (D = avg.rows ∧ 1 = avg.cols) then (CvStatus.StsInternal, probs)
  else if ¬ (D = eigenvectors.cols) then (CvStatus.StsInternal, probs)
  else if ¬ (1 = probs.rows ∧ N = probs.cols) then (CvStatus.StsInternal, probs)
  else
    (CvStatus.StsOk,
      (cvMatPcaDiffsBody lm samples avg eigenvalues eigenvectors probs normalize logprob).probs)

/-- `cvPcaDiffs( sample, avg, eigenvalues, eigenvectors, normalize, logprob )`:
the batch routine on a fresh `1 x 1` buffer, then the cell `(0, 0)` of that buffer.
An error raised inside the batch call is the error of this call. -/
def cvPcaDiffs (lm : MathLib R) (sample avg eigenvalues eigenvectors : CvMat R)
    (normalize logprob : Bool) : Except CvStatus R :=
  let _probs : CvMat R := cvCreateMat 1 1
  let r := cvMatPcaDiffs lm sample avg eigenvalues eigenvectors _probs normalize logprob
  if r.1 = CvStatus.StsOk then Except.ok (cvmGet r.2 0 0) else Except.error r.1

/-- The well-shaped calls: `M <= nEig`, the precondition under which every cell the body
reads exists (the routine does not test it), and the seven `CV_ASSERT`s of lines 119-125. -/
def ShapesOk (samples avg eigenvalues eigenvectors probs : CvMat R) : Prop :=
  eigenvectors.rows ≤ eigenvalues.rows ∧
    (samples.rows = avg.rows ∧ 1 = avg.cols) ∧
    samples.rows = eigenvectors.cols ∧
    (1 = probs.rows ∧ samples.cols = probs.cols) ∧
    (CV_IS_MAT samples ∧ CV_IS_MAT avg ∧ CV_IS_MAT eigenvalues ∧ CV_IS_MAT eigenvectors)

/-- Closed form of the local `rho`: the average of the discarded eigenvalues
`eigenvalues[M .. nEig)`, as `cvAvg( rLambda )` computes it. -/
def rhoOf (eigenvalues : CvMat R) (M : ℕ) : R :=
  (∑ d ∈ range (eigenvalues.rows - M), eigenvalues.data (d + M) 0)
    / ((eigenvalues.rows - M : ℕ) : R)

/-- Closed form of the cell `(0, n)` of `DIFS` when the combination loop reads it
(`body_DIFS` proves it is that cell). -/
def difsOf (lm : MathLib R) (samples avg eigenvalues eigenvectors : CvMat R) (n : ℕ) : R :=
  if 0 < eigenvectors.rows then
    lm.pow (lm.sqrt (∑ d ∈ range eigenvectors.rows,
      ((∑ j ∈ range samples.rows, (samples.data j n - avg.data j 0) * eigenvectors.data d j)
        / lm.sqrt (eigenvalues.data d 0)) ^ 2)) 2
  else 0

/-- Closed form of the cell `(0, n)` of `DFFS` when the combination loop reads it
(`body_DFFS` proves it is that cell). -/
def dffsOf (lm : MathLib R) (samples avg eigenvalues eigenvectors : CvMat R) (n : ℕ) : R :=
  if eigenvectors.rows < eigenvalues.rows then
    (lm.pow (lm.sqrt (∑ d ∈ range samples.rows, (samples.data d n - avg.data d 0) ^ 2)) 2
        - lm.pow (lm.sqrt (∑ d ∈ range eigenvectors.rows,
            (∑ j ∈ range samples.rows,
              (samples.data j n - avg.data j 0) * eigenvectors.data d j) ^ 2)) 2)
      / rhoOf eigenvalues eigenvectors.rows
  else 0

/-- Closed form of `normterm` when the combination loop reads it (`body_normterm`
proves it is that value). -/
def normtermOf (lm : MathLib R) (eigenvalues : CvMat R) (M : ℕ) (normalize : Bool) : R :=
  let nt : R :=
    if 0 < M ∧ normalize = true then
      0 + ∑ d ∈ range M, lm.log (lm.sqrt (eigenvalues.data d 0))
        + lm.log (2 * lm.M_PI) * ((M : R) / 2)
    else 0
  if M < eigenvalues.rows ∧ normalize = true then
    nt + lm.log (2 * lm.M_PI * rhoOf eigenvalues M) * (((eigenvalues.rows - M : ℕ) : R) / 2)
  else nt

/-! ### Inputs used in the worked examples -/

/-- Concrete scenario of the specification: the sample `(2, 1, 1/2)` as a `3 x 1` batch. -/
def scenarioSamples : CvMat R :=
  ⟨3, 1, fun i _ => if i = 0 then 2 else if i = 1 then 1 else 1 / 2⟩

/-- Concrete scenario: the mean `(0, 0, 0)`. -/
def scenarioAvg : CvMat R := ⟨3, 1, fun _ _ => 0⟩

/-- Concrete scenario: the eigenvalues `(4, 1, 1/4)`. -/
def scenarioEigenvalues : CvMat R :=
  ⟨3, 1, fun i _ => if i = 0 then 4 else if i = 1 then 1 else 1 / 4⟩

/-- Concrete scenario: the first two rows of the `3 x 3` identity. -/
def scenarioEigenvectors : CvMat R := ⟨2, 3, fun i j => if i = j then 1 else 0⟩

/-- Concrete scenario: a `1 x 1` output buffer. -/
def scenarioProbs : CvMat R := ⟨1, 1, fun _ _ => 0⟩

/-- A model without discarded eigenvalues: the two eigenvalues `(4, 1)` of the two
retained axes. -/
def fullBasisEigenvalues : CvMat R := ⟨2, 1, fun i _ => if i = 0 then 4 else 1⟩

/-- A model without retained axes: a `0 x 3` eigenvector matrix. -/
def zeroBasisEigenvectors : CvMat R := ⟨0, 3, fun _ _ => 0⟩

/-- A batch of two samples in the plane: column 0 is `A = (1, 2)`, column 1 is `B = (1, 1)`. -/
def planeSamples : CvMat R := ⟨2, 2, fun i j => if i = 0 then 1 else if j = 0 then 2 else 1⟩

/-- The mean `(0, 0)` of the plane. -/
def planeAvg : CvMat R := ⟨2, 1, fun _ _ => 0⟩

/-- One retained axis of the plane: the first coordinate axis. -/
def planeEigenvectors : CvMat R := ⟨1, 2, fun _ j => if j = 0 then 1 else 0⟩

/-- A `1 x 2` output buffer. -/
def planeProbs : CvMat R := ⟨1, 2, fun _ _ => 0⟩

/-- Eigenvalues `(1, 1)`: the discarded one averages to `rho = 1`. -/
def unitEigenvalues : CvMat R := ⟨2, 1, fun _ _ => 1⟩

/-- Eigenvalues `(1, -1)`: the discarded one averages to `rho = -1`. -/
def negRhoEigenvalues : CvMat R := ⟨2, 1, fun i _ => if i = 0 then 1 else -1⟩

end Estimator

/-! ## Rectangle and box conversions (`cvrect32f.h`) -/

section Rect32f

variable {K : Type} [Field K]

/-- `CvRect32f`: top-left corner `(x, y)`, size, and the counter-clockwise rotation angle
in degrees about `(x, y)`. -/
structure CvRect32f (K : Type) where
  x : K
  y : K
  width : K
  height : K
  angle : K

/-- `CvBox32f`: centre `(cx, cy)`, size, and the counter-clockwise rotation angle in
degrees about the centre. -/
structure CvBox32f (K : Type) where
  cx : K
  cy : K
  width : K
  height : K
  angle : K

/-- `cvRect32f( x, y, width, height, angle )`. -/
def cvRect32f (x y width height angle : K) : CvRect32f K := ⟨x, y, width, height, angle⟩

/-- `cvBox32f( cx, cy, width, height, angle )`. -/
def cvBox32f (cx cy width height angle : K) : CvBox32f K := ⟨cx, cy, width, height, angle⟩

/-- `cvBox32fFromRect32f( rect )`.  The library routine `cv2DRotationMatrix( center, angle,
scale, R )`, which is not part of the repository, is a parameter: it receives the centre,
the angle, the scale and the fresh `2 x 3` matrix and returns the matrix filled in.  The
locals `cx` and `cy` are assigned twice, in the order of the source. -/
def cvBox32fFromRect32f (cv2DRotationMatrix : K × K → K → K → CvMat K → CvMat K)
    (rect : CvRect32f K) : CvBox32f K :=
  let R : CvMat K := cv2DRotationMatrix (rect.x, rect.y) rect.angle 1 (cvCreateMat 2 3)
  let cx : K := (2 * rect.x + rect.width - 1) / 2
  let cy : K := (2 * rect.y + rect.height - 1) / 2
  let cx : K := cvmGet R 0 0 * cx + cvmGet R 0 1 * cy + cvmGet R 0 2
  let cy : K := cvmGet R 1 0 * cx + cvmGet R 1 1 * cy + cvmGet R 1 2
  cvBox32f cx cy rect.width rect.height rect.angle

/-- `cvRect32fFromBox32f( box )`, with `cv2DRotationMatrix` a parameter as above.  The
locals `x` and `y` are assigned twice, in the order of the source. -/
def cvRect32fFromBox32f (cv2DRotationMatrix : K × K → K → K → CvMat K → CvMat K)
    (box : CvBox32f K) : CvRect32f K :=
  let R : CvMat K := cv2DRotationMatrix (box.cx, box.cy) box.angle 1 (cvCreateMat 2 3)
  let x : K := (2 * box.cx + 1 - box.width) / 2
  let y : K := (2 * box.cy + 1 - box.height) / 2
  let x : K := cvmGet R 0 0 * x + cvmGet R 0 1 * y + cvmGet R 0 2
  let y : K := cvmGet R 1 0 * x + cvmGet R 1 1 * y + cvmGet R 1 2
  cvRect32f x y box.width box.height box.angle

/-- Modelled from the spec: the external `cv2DRotationMatrix` (not part of the
repository), the `2 x 3` matrix of the rotation about `center` by `angle` degrees with
isotropic `scale`.  With `a = scale * cos(angle)` and `b = scale * sin(angle)` the library
documents the rows `(a, b, (1 - a) center.x - b center.y)` and
`(-b, a, b center.x + (1 - a) center.y)`.  The cosine, the sine and `pi` are parameters. -/
def rotationMatrix2D (cos sin : K → K) (pi : K) (center : K × K) (angle scale : K)
    (mapMatrix : CvMat K) : CvMat K :=
  let a : K := scale * cos (angle * (pi / 180))
  let b : K := scale * sin (angle * (pi / 180))
  { mapMatrix with
    data := fun i j =>
      if i = 0 then
        if j = 0 then a else if j = 1 then b else (1 - a) * center.1 - b * center.2
      else
        if j = 0 then -b else if j = 1 then a else b * center.1 + (1 - a) * center.2 }

/-- A `3 x 1` rectangle with its top-left corner at the origin, turned by 90 degrees. -/
def quarterTurnRect : CvRect32f K := ⟨0, 0, 3, 1, 90⟩

/-- A `3 x 1` box centred at the origin, turned by 90 degrees. -/
def quarterTurnBox : CvBox32f K := ⟨0, 0, 3, 1, 90⟩

end Rect32f

/-- The scalar routines over the real numbers. -/
noncomputable def realMath : MathLib ℝ :=
  ⟨Real.sqrt, Real.log, Real.exp, Real.pi, fun x n => x ^ n⟩

/-! ## Double precision

The routines of `math.h` return values of type `double`.  `toDouble` rounds a real number
to the nearest value of the binary64 format (53 significant bits, least normal exponent
`-1022`, gradual underflow), ties going to the even significand.  Overflow to infinity and
`NaN` are not represented: the rounding is the one of a format with unbounded largest
exponent. -/

/-- The nearest integer, ties going to the even one. -/
noncomputable def roundHalfEven (x : ℝ) : ℤ :=
  if Int.fract x < 1 / 2 then ⌊x⌋
  else if 1 / 2 < Int.fract x then ⌈x⌉
  else if Even ⌊x⌋ then ⌊x⌋ else ⌈x⌉

/-- Exponent of the unit in the last place of binary64 at `x`: 52 below the binary
exponent of `x`, and `-1074` throughout the subnormal range. -/
noncomputable def ulpExponent (x : ℝ) : ℤ := max (Int.log 2 |x|) (-1022) - 52

/-- Rounding of a real number to the nearest `double`. -/
noncomputable def toDouble (x : ℝ) : ℝ :=
  (roundHalfEven (x / 2 ^ ulpExponent x) : ℝ) * 2 ^ ulpExponent x

section Loops

variable {R : Type}

@[simp] theorem forLoop_zero {σ : Type} (body : ℕ → σ → σ) (s : σ) : forLoop 0 body s = s := rfl

@[simp] theorem forLoop_succ {σ : Type} (k : ℕ) (body : ℕ → σ → σ) (s : σ) :
    forLoop (k + 1) body s = body k (forLoop k body s) := rfl

/-- A loop that rewrites the cells `(r, 0) .. (r, N-1)` of a matrix, each from its own
previous content. -/
theorem forLoop_row_update (r : ℕ) (f : ℕ → R → R) (m0 : CvMat R) (N : ℕ) :
    forLoop N (fun n m => cvmSet m r n (f n (cvmGet m r n))) m0 =
      ⟨m0.rows, m0.cols, fun i j => if i = r ∧ j < N then f j (m0.data r j) else m0.data i j⟩ := by
  induction N with
  | zero => simp
  | succ N ih =>
    rw [forLoop_succ, ih]
    simp only [cvmSet, cvmGet, CvMat.mk.injEq, true_and]
    funext i j
    by_cases hi : i = r
    · subst hi
      rcases Nat.lt_trichotomy j N with h | h | h
      · have h1 : j ≠ N := by omega
        have h2 : j < N + 1 := by omega
        simp [h, h1, h2]
      · subst h
        simp
      · have h1 : j ≠ N := by omega
        have h2 : ¬ j < N + 1 := by omega
        have h3 : ¬ j < N := by omega
        simp [h1, h2, h3]
    · simp [hi]

/-- A loop that stores `f n` in the cell `(r, n)` for `n < N`. -/
theorem forLoop_row_set (r : ℕ) (f : ℕ → R) (m0 : CvMat R) (N : ℕ) :
    forLoop N (fun n m => cvmSet m r n (f n)) m0 =
      ⟨m0.rows, m0.cols, fun i j => if i = r ∧ j < N then f j else m0.data i j⟩ :=
  forLoop_row_update r (fun n _ => f n) m0 N

/-- A loop that stores `f d` in the cell `(d, c)` for `d < D`. -/
theorem forLoop_col_set (c : ℕ) (f : ℕ → R) (m0 : CvMat R) (D : ℕ) :
    forLoop D (fun d m => cvmSet m d c (f d)) m0 =
      ⟨m0.rows, m0.cols, fun i j => if i < D ∧ j = c then f i else m0.data i j⟩ := by
  induction D with
  | zero => simp
  | succ D ih =>
    rw [forLoop_succ, ih]
    simp only [cvmSet, CvMat.mk.injEq, true_and]
    funext i j
    by_cases hj : j = c
    · subst hj
      rcases Nat.lt_trichotomy i D with h | h | h
      · have h1 : i ≠ D := by omega
        have h2 : i < D + 1 := by omega
        simp [h, h1, h2]
      · subst h
        simp
      · have h1 : i ≠ D := by omega
        have h2 : ¬ i < D + 1 := by omega
        have h3 : ¬ i < D := by omega
        simp [h1, h2, h3]
    · simp [hj]

/-- Two nested loops that store `v d n` in every cell `(d, n)` with `d < D`, `n < N`. -/
theorem forLoop_fill (v : ℕ → ℕ → R) (m0 : CvMat R) (D N : ℕ) :
    forLoop N (fun n s0 => forLoop D (fun d s0 => cvmSet s0 d n (v d n)) s0) m0 =
      ⟨m0.rows, m0.cols, fun i j => if i < D ∧ j < N then v i j else m0.data i j⟩ := by
  induction N with
  | zero => simp
  | succ N ih =>
    rw [forLoop_succ, ih, forLoop_col_set N (fun d => v d N)]
    simp only [CvMat.mk.injEq, true_and]
    funext i j
    by_cases hi : i < D
    · rcases Nat.lt_trichotomy j N with h | h | h
      · have h1 : j ≠ N := by omega
        have h2 : j < N + 1 := by omega
        simp [hi, h, h1, h2]
      · subst h
        simp [hi]
      · have h1 : j ≠ N := by omega
        have h2 : ¬ j < N + 1 := by omega
        have h3 : ¬ j < N := by omega
        simp [h1, h2, h3]
    · simp [hi]

/-- An accumulation loop `acc += g d`. -/
theorem forLoop_accumulate [Field R] (g : ℕ → R) (a : R) (M : ℕ) :
    forLoop M (fun d nt => nt + g d) a = a + ∑ d ∈ range M, g d := by
  induction M with
  | zero => simp
  | succ M ih => rw [forLoop_succ, ih, Finset.sum_range_succ, add_assoc]

end Loops

/-! ## The three blocks of the routine in closed form -/

section Blocks

variable {R : Type} [Field R]

/-- Cells of `DIFS` after the block `// distance in feature space`. -/
theorem distanceInFeatureSpace_DIFS (lm : MathLib R) (eigenvalues proj : CvMat R) (N M : ℕ)
    (normalize : Bool) (DIFS : CvMat R) (normterm : R) (hcols : proj.cols = M) (i j : ℕ) :
    (distanceInFeatureSpace lm eigenvalues proj N M normalize DIFS normterm).1.data i j =
      if 0 < M ∧ i = 0 ∧ j < N then
        lm.pow (lm.sqrt (∑ d ∈ range M, (proj.data j d / lm.sqrt (eigenvalues.data d 0)) ^ 2)) 2
      else DIFS.data i j := by
  unfold distanceInFeatureSpace
  by_cases hM : 0 < M
  · simp only [gt_iff_lt, hM, if_true, true_and]
    rw [forLoop_row_set 0]
    simp only
    by_cases h : i = 0 ∧ j < N
    · rw [if_pos h, if_pos h]
      congr 1
      rw [forLoop_row_update 0 (fun d x => x / cvmGet
        (forLoop M (fun d m => cvmSet m d 0 (lm.sqrt (cvmGet eigenvalues d 0))) (cvCreateMat M 1))
        d 0), forLoop_col_set 0]
      simp only [cvNorm, cvCopy, cvGetRow, cvmGet, cvCreateMat, sum_range_one, add_zero, true_and,
        hcols]
      congr 1
      apply Finset.sum_congr rfl
      intro d hd
      have hd' : d < M := Finset.mem_range.mp hd
      simp [hd']
    · rw [if_neg h, if_neg h]
  · simp [hM]

/-- Value of `normterm` after the block `// distance in feature space`. -/
theorem distanceInFeatureSpace_normterm (lm : MathLib R) (eigenvalues proj : CvMat R) (N M : ℕ)
    (normalize : Bool) (DIFS : CvMat R) (normterm : R) :
    (distanceInFeatureSpace lm eigenvalues proj N M normalize DIFS normterm).2 =
      if 0 < M ∧ normalize = true then
        normterm + ∑ d ∈ range M, lm.log (lm.sqrt (eigenvalues.data d 0))
          + lm.log (2 * lm.M_PI) * ((M : R) / 2)
      else normterm := by
  unfold distanceInFeatureSpace
  by_cases hM : 0 < M
  · cases normalize
    · simp [hM]
    · simp only [gt_iff_lt, hM, if_true, true_and]
      rw [forLoop_accumulate, forLoop_col_set 0]
      congr 2
      apply Finset.sum_congr rfl
      intro d hd
      have hd' : d < M := Finset.mem_range.mp hd
      simp [cvmGet, hd']
  · simp [hM]

/-- Cells of `DFFS` after the block `// distance from feature space`. -/
theorem distanceFromFeatureSpace_DFFS (lm : MathLib R) (samples avg eigenvalues proj : CvMat R)
    (D N M nEig : ℕ) (normalize : Bool) (DFFS : CvMat R) (normterm : R) (hcols : proj.cols = M)
    (i j : ℕ) :
    (distanceFromFeatureSpace lm samples avg eigenvalues proj D N M nEig normalize DFFS
        normterm).1.data i j =
      if M < nEig ∧ i = 0 ∧ j < N then
        (lm.pow (lm.sqrt (∑ d ∈ range D, (samples.data d j - avg.data d 0) ^ 2)) 2
            - lm.pow (lm.sqrt (∑ d ∈ range M, proj.data j d ^ 2)) 2)
          / ((∑ d ∈ range (nEig - M), eigenvalues.data (d + M) 0) / ((nEig - M : ℕ) : R))
      else DFFS.data i j := by
  unfold distanceFromFeatureSpace
  by_cases hM : M < nEig
  · simp only [gt_iff_lt, hM, if_true, true_and]
    rw [forLoop_row_update 0 (fun _ x => x / _), forLoop_row_set 0, forLoop_col_set 0,
      forLoop_fill (fun d n => cvmGet samples d n - cvmGet avg d 0)]
    simp only
    by_cases h : i = 0 ∧ j < N
    · rw [if_pos h, if_pos h]
      have hj : j < N := h.2
      simp only [true_and, hj, if_true]
      congr 1
      · congr 2
        · simp only [cvNorm, cvGetCol, cvCreateMat, sum_range_one, add_zero, cvmGet]
          congr 1
          apply Finset.sum_congr rfl
          intro d hd
          have hd' : d < D := Finset.mem_range.mp hd
          simp [hd', hj]
        · simp only [cvNorm, cvGetRow, sum_range_one, add_zero, hcols]
      · simp only [cvAvg, cvCreateMat, sum_range_one, mul_one, cvmGet]
        congr 1
        apply Finset.sum_congr rfl
        intro d hd
        have hd' : d < nEig - M := Finset.mem_range.mp hd
        simp [hd']
    · simp [h]
  · simp [hM]

/-- Value of `normterm` after the block `// distance from feature space`. -/
theorem distanceFromFeatureSpace_normterm (lm : MathLib R)
    (samples avg eigenvalues proj : CvMat R) (D N M nEig : ℕ) (normalize : Bool)
    (DFFS : CvMat R) (normterm : R) :
    (distanceFromFeatureSpace lm samples avg eigenvalues proj D N M nEig normalize DFFS
        normterm).2 =
      if M < nEig ∧ normalize = true then
        normterm + lm.log (2 * lm.M_PI *
            ((∑ d ∈ range (nEig - M), eigenvalues.data (d + M) 0) / ((nEig - M : ℕ) : R)))
          * (((nEig - M : ℕ) : R) / 2)
      else normterm := by
  unfold distanceFromFeatureSpace
  by_cases hM : M < nEig
  · cases normalize
    · simp [hM]
    · simp only [gt_iff_lt, hM, if_true, true_and]
      rw [forLoop_col_set 0]
      simp only [cvAvg, cvCreateMat, sum_range_one, mul_one, cvmGet]
      congr 5
      apply Finset.sum_congr rfl
      intro d hd
      have hd' : d < nEig - M := Finset.mem_range.mp hd
      simp [hd']
  · simp [hM]

/-- Cells of `probs` after `// logp sum` and the optional exponentiation. -/
theorem logpSum_data (lm : MathLib R) (N : ℕ) (DIFS DFFS : CvMat R) (normterm : R)
    (logprob : Bool) (probs : CvMat R) (i j : ℕ) :
    (logpSum lm N DIFS DFFS normterm logprob probs).data i j =
      if i = 0 ∧ j < N then
        if logprob = true then DIFS.data 0 j / (-2) + DFFS.data 0 j / (-2) - normterm
        else lm.exp (DIFS.data 0 j / (-2) + DFFS.data 0 j / (-2) - normterm)
      else probs.data i j := by
  unfold logpSum
  cases logprob
  · simp only [Bool.not_false, if_true]
    rw [forLoop_row_update 0 (fun _ x => lm.exp x), forLoop_row_set 0]
    by_cases h : i = 0 ∧ j < N
    · simp [h, cvmGet]
    · simp [h]
  · simp only [Bool.not_true, Bool.false_eq_true, if_false]
    rw [forLoop_row_set 0]
    by_cases h : i = 0 ∧ j < N
    · simp [h, cvmGet]
    · simp [h]

/-- The loops of `logpSum` keep the shape of `probs`. -/
theorem logpSum_shape (lm : MathLib R) (N : ℕ) (DIFS DFFS : CvMat R) (normterm : R)
    (logprob : Bool) (probs : CvMat R) :
    (logpSum lm N DIFS DFFS normterm logprob probs).rows = probs.rows ∧
      (logpSum lm N DIFS DFFS normterm logprob probs).cols = probs.cols := by
  unfold logpSum
  cases logprob
  · simp only [Bool.not_false, if_true]
    rw [forLoop_row_update 0 (fun _ x => lm.exp x), forLoop_row_set 0]
    exact ⟨rfl, rfl⟩
  · simp only [Bool.not_true, Bool.false_eq_true, if_false]
    rw [forLoop_row_set 0]
    exact ⟨rfl, rfl⟩

/-- Cell `(0, n)` of `DIFS` at the end of the body. -/
theorem body_DIFS (lm : MathLib R) (samples avg eigenvalues eigenvectors probs : CvMat R)
    (normalize logprob : Bool) (n : ℕ) (hn : n < samples.cols) :
    (cvMatPcaDiffsBody lm samples avg eigenvalues eigenvectors probs normalize
        logprob).DIFS.data 0 n = difsOf lm samples avg eigenvalues eigenvectors n := by
  have hc : (cvProjectPCA samples avg eigenvectors
      (cvCreateMat samples.cols eigenvectors.rows : CvMat R)).cols = eigenvectors.rows := rfl
  unfold cvMatPcaDiffsBody
  dsimp only
  rw [distanceInFeatureSpace_DIFS _ _ _ _ _ _ _ _ hc]
  simp [difsOf, hn, cvProjectPCA, cvZero]

/-- Cell `(0, n)` of `DFFS` at the end of the body. -/
theorem body_DFFS (lm : MathLib R) (samples avg eigenvalues eigenvectors probs : CvMat R)
    (normalize logprob : Bool) (n : ℕ) (hn : n < samples.cols) :
    (cvMatPcaDiffsBody lm samples avg eigenvalues eigenvectors probs normalize
        logprob).DFFS.data 0 n = dffsOf lm samples avg eigenvalues eigenvectors n := by
  have hc : (cvProjectPCA samples avg eigenvectors
      (cvCreateMat samples.cols eigenvectors.rows : CvMat R)).cols = eigenvectors.rows := rfl
  unfold cvMatPcaDiffsBody
  dsimp only
  rw [distanceFromFeatureSpace_DFFS _ _ _ _ _ _ _ _ _ _ _ _ hc]
  simp [dffsOf, rhoOf, hn, cvProjectPCA, cvZero]

/-- Value of `normterm` at the end of the body. -/
theorem body_normterm (lm : MathLib R) (samples avg eigenvalues eigenvectors probs : CvMat R)
    (normalize logprob : Bool) :
    (cvMatPcaDiffsBody lm samples avg eigenvalues eigenvectors probs normalize
        logprob).normterm = normtermOf lm eigenvalues eigenvectors.rows normalize := by
  unfold cvMatPcaDiffsBody
  dsimp only
  rw [distanceFromFeatureSpace_normterm, distanceInFeatureSpace_normterm]
  simp [normtermOf, rhoOf]

/-- Cells of `probs` at the end of the body, from the final `DIFS`, `DFFS`, `normterm`. -/
theorem body_probs (lm : MathLib R) (samples avg eigenvalues eigenvectors probs : CvMat R)
    (normalize logprob : Bool) (i j : ℕ) :
    (cvMatPcaDiffsBody lm samples avg eigenvalues eigenvectors probs normalize
        logprob).probs.data i j =
      if i = 0 ∧ j < samples.cols then
        if logprob = true then
          difsOf lm samples avg eigenvalues eigenvectors j / (-2)
            + dffsOf lm samples avg eigenvalues eigenvectors j / (-2)
            - normtermOf lm eigenvalues eigenvectors.rows normalize
        else
          lm.exp (difsOf lm samples avg eigenvalues eigenvectors j / (-2)
            + dffsOf lm samples avg eigenvalues eigenvectors j / (-2)
            - normtermOf lm eigenvalues eigenvectors.rows normalize)
      else probs.data i j := by
  by_cases hij : i = 0 ∧ j < samples.cols
  · have h1 := body_DIFS lm samples avg eigenvalues eigenvectors probs normalize logprob j hij.2
    have h2 := body_DFFS lm samples avg eigenvalues eigenvectors probs normalize logprob j hij.2
    have h3 := body_normterm lm samples avg eigenvalues eigenvectors probs normalize logprob
    rw [if_pos hij, ← h1, ← h2, ← h3]
    unfold cvMatPcaDiffsBody
    dsimp only
    rw [logpSum_data, if_pos hij]
  · rw [if_neg hij]
    unfold cvMatPcaDiffsBody
    dsimp only
    rw [logpSum_data, if_neg hij]

/-- A call with well-shaped arguments runs to the end: the status is `StsOk` and the
buffer returned is the one the body leaves. -/
theorem cvMatPcaDiffs_of_shapesOk (lm : MathLib R)
    (samples avg eigenvalues eigenvectors probs : CvMat R) (normalize logprob : Bool)
    (h : ShapesOk samples avg eigenvalues eigenvectors probs) :
    cvMatPcaDiffs lm samples avg eigenvalues eigenvectors probs normalize logprob =
      (CvStatus.StsOk,
        (cvMatPcaDiffsBody lm samples avg eigenvalues eigenvectors probs normalize
          logprob).probs) := by
  obtain ⟨_, h2, h3, h4, m1, m2, m3, m4⟩ := h
  unfold cvMatPcaDiffs
  dsimp only
  rw [if_neg (not_not.mpr m1), if_neg (not_not.mpr m2), if_neg (not_not.mpr m3),
    if_neg (not_not.mpr m4), if_neg (not_not.mpr h2), if_neg (not_not.mpr h3),
    if_neg (not_not.mpr h4)]

/-- A call in which one of the seven assertions fails raises `CV_StsInternal` and returns
`probs` as it was passed. -/
theorem cvMatPcaDiffs_of_failed_assert (lm : MathLib R)
    (samples avg eigenvalues eigenvectors probs : CvMat R) (normalize logprob : Bool)
    (h : ¬ (CV_IS_MAT samples ∧ CV_IS_MAT avg ∧ CV_IS_MAT eigenvalues ∧
      CV_IS_MAT eigenvectors ∧ (samples.rows = avg.rows ∧ 1 = avg.cols) ∧
      samples.rows = eigenvectors.cols ∧ (1 = probs.rows ∧ samples.cols = probs.cols))) :
    cvMatPcaDiffs lm samples avg eigenvalues eigenvectors probs normalize logprob =
      (CvStatus.StsInternal, probs) := by
  unfold cvMatPcaDiffs
  dsimp only
  by_cases m1 : CV_IS_MAT samples
  swap
  · rw [if_pos m1]
  rw [if_neg (not_not.mpr m1)]
  by_cases m2 : CV_IS_MAT avg
  swap
  · rw [if_pos m2]
  rw [if_neg (not_not.mpr m2)]
  by_cases m3 : CV_IS_MAT eigenvalues
  swap
  · rw [if_pos m3]
  rw [if_neg (not_not.mpr m3)]
  by_cases m4 : CV_IS_MAT eigenvectors
  swap
  · rw [if_pos m4]
  rw [if_neg (not_not.mpr m4)]
  by_cases a : samples.rows = avg.rows ∧ 1 = avg.cols
  swap
  · rw [if_pos a]
  rw [if_neg (not_not.mpr a)]
  by_cases b : samples.rows = eigenvectors.cols
  swap
  · rw [if_pos b]
  rw [if_neg (not_not.mpr b)]
  by_cases c : 1 = probs.rows ∧ samples.cols = probs.cols
  swap
  · rw [if_pos c]
  exact absurd ⟨m1, m2, m3, m4, a, b, c⟩ h

end Blocks

/-! ## The routine over the real numbers -/

section RealModel

@[simp] theorem realMath_sqrt (x : ℝ) : realMath.sqrt x = Real.sqrt x := rfl

@[simp] theorem realMath_log (x : ℝ) : realMath.log x = Real.log x := rfl

@[simp] theorem realMath_exp (x : ℝ) : realMath.exp x = Real.exp x := rfl

@[simp] theorem realMath_pi : realMath.M_PI = Real.pi := rfl

@[simp] theorem realMath_pow (x : ℝ) (n : ℕ) : realMath.pow x n = x ^ n := rfl

/-- Over the reals `pow( cvNorm( v ), 2 )` is the sum of the squares, so `DIFS[n]` is the
sum of the squared scaled coordinates (the empty sum when `M = 0`). -/
theorem difsOf_real (samples avg eigenvalues eigenvectors : CvMat ℝ) (n : ℕ) :
    difsOf realMath samples avg eigenvalues eigenvectors n =
      ∑ d ∈ range eigenvectors.rows,
        ((∑ j ∈ range samples.rows, (samples.data j n - avg.data j 0) * eigenvectors.data d j)
          / Real.sqrt (eigenvalues.data d 0)) ^ 2 := by
  unfold difsOf
  by_cases hM : 0 < eigenvectors.rows
  · rw [if_pos hM, realMath_pow, realMath_sqrt, Real.sq_sqrt]
    · simp only [realMath_sqrt]
    · exact Finset.sum_nonneg (fun d _ => sq_nonneg _)
  · have h0 : eigenvectors.rows = 0 := by omega
    rw [if_neg hM, h0]
    simp

/-- Over the reals `DFFS[n]` is the residual energy over `rho` (and `0` when nothing is
discarded). -/
theorem dffsOf_real (samples avg eigenvalues eigenvectors : CvMat ℝ) (n : ℕ) :
    dffsOf realMath samples avg eigenvalues eigenvectors n =
      if eigenvectors.rows < eigenvalues.rows then
        ((∑ d ∈ range samples.rows, (samples.data d n - avg.data d 0) ^ 2)
            - ∑ d ∈ range eigenvectors.rows,
                (∑ j ∈ range samples.rows,
                  (samples.data j n - avg.data j 0) * eigenvectors.data d j) ^ 2)
          / rhoOf eigenvalues eigenvectors.rows
      else 0 := by
  unfold dffsOf
  by_cases hM : eigenvectors.rows < eigenvalues.rows
  · rw [if_pos hM, if_pos hM, realMath_pow, realMath_pow, realMath_sqrt, realMath_sqrt,
      Real.sq_sqrt, Real.sq_sqrt]
    · exact Finset.sum_nonneg (fun d _ => sq_nonneg _)
    · exact Finset.sum_nonneg (fun d _ => sq_nonneg _)
  · rw [if_neg hM, if_neg hM]

/-- The average of the discarded eigenvalues written with the index `M + i` and a real
denominator. -/
theorem rhoOf_eq (eigenvalues : CvMat ℝ) (M : ℕ) (h : M ≤ eigenvalues.rows) :
    rhoOf eigenvalues M =
      (∑ i ∈ range (eigenvalues.rows - M), eigenvalues.data (M + i) 0)
        / ((eigenvalues.rows : ℝ) - M) := by
  unfold rhoOf
  rw [Nat.cast_sub h]
  congr 1
  exact Finset.sum_congr rfl (fun d _ => by rw [add_comm])

/-- The value written at `(0, n)` by a successful call, over the reals. -/
theorem cvMatPcaDiffs_real (samples avg eigenvalues eigenvectors probs : CvMat ℝ)
    (normalize logprob : Bool)
    (h : ShapesOk samples avg eigenvalues eigenvectors probs) (n : ℕ) (hn : n < samples.cols) :
    (cvMatPcaDiffs realMath samples avg eigenvalues eigenvectors probs normalize logprob).2.data 0 n =
      if logprob = true then
        difsOf realMath samples avg eigenvalues eigenvectors n / (-2)
          + dffsOf realMath samples avg eigenvalues eigenvectors n / (-2)
          - normtermOf realMath eigenvalues eigenvectors.rows normalize
      else
        Real.exp (difsOf realMath samples avg eigenvalues eigenvectors n / (-2)
          + dffsOf realMath samples avg eigenvalues eigenvectors n / (-2)
          - normtermOf realMath eigenvalues eigenvectors.rows normalize) := by
  rw [cvMatPcaDiffs_of_shapesOk _ _ _ _ _ _ _ _ h, body_probs]
  simp [hn]

/-- Reading column `k` of a batch as a one-column batch does not change `DIFS`. -/
theorem difsOf_cvGetCol {R : Type} [Field R] (lm : MathLib R)
    (samples avg eigenvalues eigenvectors : CvMat R) (k : ℕ) :
    difsOf lm (cvGetCol samples k) avg eigenvalues eigenvectors 0 =
      difsOf lm samples avg eigenvalues eigenvectors k := by
  simp [difsOf, cvGetCol]

/-- Reading column `k` of a batch as a one-column batch does not change `DFFS`. -/
theorem dffsOf_cvGetCol {R : Type} [Field R] (lm : MathLib R)
    (samples avg eigenvalues eigenvectors : CvMat R) (k : ℕ) :
    dffsOf lm (cvGetCol samples k) avg eigenvalues eigenvectors 0 =
      dffsOf lm samples avg eigenvalues eigenvectors k := by
  simp [dffsOf, cvGetCol]

/-- The accumulated `normterm` over the reals, in the order the specification writes it. -/
theorem normtermOf_real (eigenvalues : CvMat ℝ) (M : ℕ) (h : M ≤ eigenvalues.rows) :
    normtermOf realMath eigenvalues M true =
      (if 0 < M then
          ∑ d ∈ range M, Real.log (Real.sqrt (eigenvalues.data d 0))
            + ((M : ℝ) / 2) * Real.log (2 * Real.pi)
        else 0)
      + (if M < eigenvalues.rows then
          (((eigenvalues.rows : ℝ) - M) / 2)
            * Real.log (2 * Real.pi *
                ((∑ i ∈ range (eigenvalues.rows - M), eigenvalues.data (M + i) 0)
                  / ((eigenvalues.rows : ℝ) - M)))
        else 0) := by
  unfold normtermOf
  rw [rhoOf_eq _ _ h, Nat.cast_sub h]
  simp only [and_true, realMath_log, realMath_sqrt, realMath_pi, zero_add]
  by_cases h1 : 0 < M <;> by_cases h2 : M < eigenvalues.rows <;> simp [h1, h2] <;> ring

theorem normtermOf_false {R : Type} [Field R] (lm : MathLib R) (eigenvalues : CvMat R) (M : ℕ) :
    normtermOf lm eigenvalues M false = 0 := by
  simp [normtermOf]

theorem scenario_shapesOk :
    ShapesOk (scenarioSamples : CvMat ℝ) scenarioAvg scenarioEigenvalues scenarioEigenvectors
      scenarioProbs := by
  simp [ShapesOk, CV_IS_MAT, scenarioSamples, scenarioAvg, scenarioEigenvalues, scenarioEigenvectors,
    scenarioProbs]

end RealModel

/-! ## Rounding to double precision -/

section DoubleModel

/-- A real number closer than `1/2` to an integer rounds to it. -/
theorem roundHalfEven_eq (x : ℝ) (m : ℤ) (h : |x - m| < 1 / 2) : roundHalfEven x = m := by
  rw [abs_lt] at h
  obtain ⟨h1, h2⟩ := h
  unfold roundHalfEven
  by_cases hm : (m : ℝ) ≤ x
  · have hfl : ⌊x⌋ = m := Int.floor_eq_iff.mpr ⟨hm, by linarith⟩
    have hfr : Int.fract x < 1 / 2 := by
      rw [Int.fract, hfl]
      linarith
    rw [if_pos hfr, hfl]
  · have hm' : x < m := not_le.mp hm
    have hfl : ⌊x⌋ = m - 1 := Int.floor_eq_iff.mpr ⟨by push_cast; linarith, by push_cast; linarith⟩
    have hfr : 1 / 2 < Int.fract x := by
      rw [Int.fract, hfl]
      push_cast
      linarith
    have hce : ⌈x⌉ = m := Int.ceil_eq_iff.mpr ⟨by linarith, le_of_lt hm'⟩
    rw [if_neg (not_lt.mpr (le_of_lt hfr)), if_pos hfr, hce]

/-- The unit in the last place inside the binade `[2^k, 2^(k+1))` of a normal number. -/
theorem ulpExponent_eq (x : ℝ) (k : ℤ) (hk : -1022 ≤ k) (h1 : (2 : ℝ) ^ k ≤ |x|)
    (h2 : |x| < (2 : ℝ) ^ (k + 1)) : ulpExponent x = k - 52 := by
  have hpos : 0 < |x| := lt_of_lt_of_le (zpow_pos (by norm_num) k) h1
  have hlog : Int.log 2 |x| = k := by
    apply le_antisymm
    · have := (Int.lt_zpow_iff_log_lt (b := 2) (by norm_num) hpos (x := k + 1)).mp
        (by simpa using h2)
      omega
    · exact (Int.zpow_le_iff_le_log (b := 2) (by norm_num) hpos).mp (by simpa using h1)
  unfold ulpExponent
  rw [hlog, max_eq_left hk]

/-- Rounding inside a binade, away from the ties. -/
theorem toDouble_eq (x : ℝ) (k m : ℤ) (hk : -1022 ≤ k) (h1 : (2 : ℝ) ^ k ≤ |x|)
    (h2 : |x| < (2 : ℝ) ^ (k + 1)) (hm : |x / 2 ^ (k - 52) - m| < 1 / 2) :
    toDouble x = m * 2 ^ (k - 52) := by
  unfold toDouble
  rw [ulpExponent_eq x k hk h1 h2, roundHalfEven_eq _ m hm]

/-- A number with a 53-bit significand is its own rounding. -/
theorem toDouble_exact (k m : ℤ) (hk : -1022 ≤ k) (h1 : 2 ^ 52 ≤ m) (h2 : m < 2 ^ 53) :
    toDouble ((m : ℝ) * 2 ^ (k - 52)) = (m : ℝ) * 2 ^ (k - 52) := by
  have hp : (0 : ℝ) < 2 ^ (k - 52) := zpow_pos (by norm_num) _
  have hm0 : (0 : ℝ) < m := by
    have : (0 : ℤ) < m := lt_of_lt_of_le (by norm_num) h1
    exact_mod_cast this
  have e1 : (2 : ℝ) ^ k = ((2 ^ 52 : ℤ) : ℝ) * 2 ^ (k - 52) := by
    rw [show k = (k - 52) + 52 by ring, zpow_add₀ (by norm_num : (2 : ℝ) ≠ 0), mul_comm]
    norm_num
  have e2 : (2 : ℝ) ^ (k + 1) = ((2 ^ 53 : ℤ) : ℝ) * 2 ^ (k - 52) := by
    rw [show k + 1 = (k - 52) + 53 by ring, zpow_add₀ (by norm_num : (2 : ℝ) ≠ 0), mul_comm]
    norm_num
  apply toDouble_eq _ k m hk
  · rw [abs_of_pos (mul_pos hm0 hp), e1]
    exact mul_le_mul_of_nonneg_right (by exact_mod_cast h1) (le_of_lt hp)
  · rw [abs_of_pos (mul_pos hm0 hp), e2]
    exact mul_lt_mul_of_pos_right (by exact_mod_cast h2) hp
  · rw [mul_div_assoc, div_self (ne_of_gt hp), mul_one, sub_self, abs_zero]
    norm_num

theorem toDouble_one : toDouble 1 = 1 := by
  have h := toDouble_exact 0 (2 ^ 52) (by norm_num) (by norm_num) (by norm_num)
  have e : (((2 ^ 52 : ℤ) : ℝ)) * 2 ^ ((0 : ℤ) - 52) = 1 := by norm_num
  rwa [e] at h

theorem toDouble_sqrt_one : toDouble (Real.sqrt 1) = 1 := by
  rw [Real.sqrt_one, toDouble_one]

end DoubleModel

/-! ## Claims -/

section Claims

/-- C2: with `logprob = true`, the value written at every column `n` with
`normalize = true` is the value written with `normalize = false` minus `normTerm`, where
`normTerm` is `sum over d < M of log(sqrt(eigenvalues[d])) + (M/2) log(2 pi)` when `M > 0`,
plus `((nEig - M)/2) log(2 pi rho)` when `nEig > M`, `rho` being the average of
`eigenvalues[M..nEig)`; `normTerm` mentions neither the samples nor `n`. -/
theorem C2_normalize_subtracts_constant
    (samples avg eigenvalues eigenvectors probs : CvMat ℝ) (n : ℕ)
    (h : ShapesOk samples avg eigenvalues eigenvectors probs) (hn : n < samples.cols) :
    (cvMatPcaDiffs realMath samples avg eigenvalues eigenvectors probs true true).2.data 0 n =
      (cvMatPcaDiffs realMath samples avg eigenvalues eigenvectors probs false true).2.data 0 n
        - ((if 0 < eigenvectors.rows then
              ∑ d ∈ range eigenvectors.rows, Real.log (Real.sqrt (eigenvalues.data d 0))
                + ((eigenvectors.rows : ℝ) / 2) * Real.log (2 * Real.pi)
            else 0)
          + (if eigenvectors.rows < eigenvalues.rows then
              (((eigenvalues.rows : ℝ) - eigenvectors.rows) / 2)
                * Real.log (2 * Real.pi *
                    ((∑ i ∈ range (eigenvalues.rows - eigenvectors.rows),
                        eigenvalues.data (eigenvectors.rows + i) 0)
                      / ((eigenvalues.rows : ℝ) - eigenvectors.rows)))
            else 0)) := by
  rw [cvMatPcaDiffs_real _ _ _ _ _ _ _ h n hn, cvMatPcaDiffs_real _ _ _ _ _ _ _ h n hn,
    ← normtermOf_real _ _ h.1, normtermOf_false]
  simp

/-- C2 on the concrete scenario: `normTerm = log 2 + log(2 pi) + (1/2) log(2 pi / 4)`. -/
theorem C2_normalize_subtracts_constant_witness :
    ShapesOk (scenarioSamples : CvMat ℝ) scenarioAvg scenarioEigenvalues scenarioEigenvectors
        scenarioProbs ∧
      (cvMatPcaDiffs realMath scenarioSamples scenarioAvg scenarioEigenvalues
          scenarioEigenvectors scenarioProbs true true).2.data 0 0 =
        (cvMatPcaDiffs realMath scenarioSamples scenarioAvg scenarioEigenvalues
          scenarioEigenvectors scenarioProbs false true).2.data 0 0
          - (Real.log 2 + Real.log (2 * Real.pi)
              + (1 / 2) * Real.log (2 * Real.pi * (1 / 4))) := by
  refine ⟨scenario_shapesOk, ?_⟩
  have h4 : Real.sqrt 4 = 2 := by
    rw [show (4 : ℝ) = 2 ^ 2 by norm_num]
    exact Real.sqrt_sq (by norm_num)
  rw [C2_normalize_subtracts_constant scenarioSamples scenarioAvg scenarioEigenvalues
    scenarioEigenvectors scenarioProbs 0 scenario_shapesOk (by simp [scenarioSamples])]
  simp [scenarioEigenvalues, scenarioEigenvectors, Finset.sum_range_succ, h4]
  norm_num

/-- C3: for a well-shaped batch call and every column `k < N`, `cvPcaDiffs` on column `k`
(taken as a `D x 1` sample) returns, for every setting of the flags, the value the batch
call writes at index `k`. -/
theorem C3_scalar_equals_batch_entry
    (samples avg eigenvalues eigenvectors probs : CvMat ℝ) (normalize logprob : Bool) (k : ℕ)
    (h : ShapesOk samples avg eigenvalues eigenvectors probs) (hk : k < samples.cols) :
    cvPcaDiffs realMath (cvGetCol samples k) avg eigenvalues eigenvectors normalize logprob =
      Except.ok
        ((cvMatPcaDiffs realMath samples avg eigenvalues eigenvectors probs normalize
          logprob).2.data 0 k) := by
  have hcol : ShapesOk (cvGetCol samples k) avg eigenvalues eigenvectors
      (cvCreateMat 1 1 : CvMat ℝ) :=
    ⟨h.1, h.2.1, h.2.2.1, ⟨rfl, rfl⟩, ⟨h.2.2.2.2.1.1, Nat.one_pos⟩, h.2.2.2.2.2⟩
  unfold cvPcaDiffs
  dsimp only
  rw [cvMatPcaDiffs_of_shapesOk _ _ _ _ _ _ _ _ hcol, cvMatPcaDiffs_of_shapesOk _ _ _ _ _ _ _ _ h]
  simp only [if_true, cvmGet]
  rw [body_probs, body_probs, difsOf_cvGetCol, dffsOf_cvGetCol]
  simp [hk, cvGetCol]

/-- C3 on the two-column batch of the plane, `A = (1, 2)` and `B = (1, 1)`, with
eigenvalues `(1, 1)`: the scalar routine on the second column `B` alone returns what the
batch call writes at index `1`, here the log-probability `-1`, which differs from the
`-5/2` the batch call writes at index `0` for `A`. -/
theorem C3_scalar_equals_batch_entry_witness :
    ShapesOk (planeSamples : CvMat ℝ) planeAvg unitEigenvalues planeEigenvectors planeProbs ∧
      cvPcaDiffs realMath (cvGetCol planeSamples 1) planeAvg unitEigenvalues
          planeEigenvectors false true =
        Except.ok
          ((cvMatPcaDiffs realMath planeSamples planeAvg unitEigenvalues planeEigenvectors
            planeProbs false true).2.data 0 1) ∧
      (cvMatPcaDiffs realMath planeSamples planeAvg unitEigenvalues planeEigenvectors
        planeProbs false true).2.data 0 1 = -1 ∧
      (cvMatPcaDiffs realMath planeSamples planeAvg unitEigenvalues planeEigenvectors
        planeProbs false true).2.data 0 0 = -5 / 2 := by
  have hs : ShapesOk (planeSamples : CvMat ℝ) planeAvg unitEigenvalues planeEigenvectors
      planeProbs := by
    simp [ShapesOk, CV_IS_MAT, planeSamples, planeAvg, unitEigenvalues, planeEigenvectors,
      planeProbs]
  have h0 : (0 : ℕ) < (planeSamples : CvMat ℝ).cols := by simp [planeSamples]
  have h1 : (1 : ℕ) < (planeSamples : CvMat ℝ).cols := by simp [planeSamples]
  refine ⟨hs, C3_scalar_equals_batch_entry planeSamples planeAvg unitEigenvalues
    planeEigenvectors planeProbs false true 1 hs h1, ?_, ?_⟩
  · rw [cvMatPcaDiffs_real _ _ _ _ _ _ _ hs 1 h1, difsOf_real, dffsOf_real, normtermOf_false]
    simp [planeSamples, planeAvg, unitEigenvalues, planeEigenvectors, rhoOf,
      Finset.sum_range_succ]
    norm_num
  · rw [cvMatPcaDiffs_real _ _ _ _ _ _ _ hs 0 h0, difsOf_real, dffsOf_real, normtermOf_false]
    simp [planeSamples, planeAvg, unitEigenvalues, planeEigenvectors, rhoOf,
      Finset.sum_range_succ]
    norm_num

/-- C4: for a well-shaped call, every value of `normalize` and every column `n`, the value
written with `logprob = false` is `exp` of the value written with `logprob = true`. -/
theorem C4_exp_of_logprob
    (samples avg eigenvalues eigenvectors probs : CvMat ℝ) (normalize : Bool) (n : ℕ)
    (h : ShapesOk samples avg eigenvalues eigenvectors probs) (hn : n < samples.cols) :
    (cvMatPcaDiffs realMath samples avg eigenvalues eigenvectors probs normalize false).2.data 0 n =
      Real.exp
        ((cvMatPcaDiffs realMath samples avg eigenvalues eigenvectors probs normalize
          true).2.data 0 n) := by
  rw [cvMatPcaDiffs_real _ _ _ _ _ _ _ h n hn, cvMatPcaDiffs_real _ _ _ _ _ _ _ h n hn]
  simp

/-- C4 on the concrete scenario: the likelihood is `exp(-3/2)`. -/
theorem C4_exp_of_logprob_witness :
    ShapesOk (scenarioSamples : CvMat ℝ) scenarioAvg scenarioEigenvalues scenarioEigenvectors
        scenarioProbs ∧
      (cvMatPcaDiffs realMath scenarioSamples scenarioAvg scenarioEigenvalues
          scenarioEigenvectors scenarioProbs false false).2.data 0 0 = Real.exp (-3 / 2) := by
  refine ⟨scenario_shapesOk, ?_⟩
  have h4 : Real.sqrt 4 = 2 := by
    rw [show (4 : ℝ) = 2 ^ 2 by norm_num]
    exact Real.sqrt_sq (by norm_num)
  rw [C4_exp_of_logprob scenarioSamples scenarioAvg scenarioEigenvalues scenarioEigenvectors
    scenarioProbs false 0 scenario_shapesOk (by simp [scenarioSamples]),
    cvMatPcaDiffs_real _ _ _ _ _ _ _ scenario_shapesOk 0 (by simp [scenarioSamples]),
    difsOf_real, dffsOf_real, normtermOf_false]
  congr 1
  simp [scenarioSamples, scenarioAvg, scenarioEigenvalues, scenarioEigenvectors, rhoOf,
    Finset.sum_range_succ, h4]
  norm_num

/-- C5: for a well-shaped call on a model whose retained eigenvalues are positive and
whose `rho` is positive when `nEig > M`, if column `n` of the batch equals the mean then
`DIFS[n] = 0`, `DFFS[n] = 0`, and the log-probability written at `n` is `-normTerm`:
with `normalize = true` minus the sum over `d < M` of `log(sqrt(eigenvalues[d]))`, minus
`(M/2) log(2 pi)`, minus `((nEig - M)/2) log(2 pi rho)` when `nEig > M`; with
`normalize = false` it is `0`. -/
theorem C5_exact_fit
    (samples avg eigenvalues eigenvectors probs : CvMat ℝ) (normalize : Bool) (n : ℕ)
    (h : ShapesOk samples avg eigenvalues eigenvectors probs) (hn : n < samples.cols)
    (hpos : ∀ d, d < eigenvectors.rows → 0 < eigenvalues.data d 0)
    (hrho : eigenvectors.rows < eigenvalues.rows →
      0 < (∑ i ∈ range (eigenvalues.rows - eigenvectors.rows),
            eigenvalues.data (eigenvectors.rows + i) 0)
          / ((eigenvalues.rows : ℝ) - eigenvectors.rows))
    (hfit : ∀ j, j < samples.rows → samples.data j n = avg.data j 0) :
    (cvMatPcaDiffsBody realMath samples avg eigenvalues eigenvectors probs normalize
        true).DIFS.data 0 n = 0 ∧
      (cvMatPcaDiffsBody realMath samples avg eigenvalues eigenvectors probs normalize
        true).DFFS.data 0 n = 0 ∧
      (cvMatPcaDiffs realMath samples avg eigenvalues eigenvectors probs normalize true).2.data 0 n =
        - (if normalize = true then
            (if 0 < eigenvectors.rows then
                ∑ d ∈ range eigenvectors.rows, Real.log (Real.sqrt (eigenvalues.data d 0))
                  + ((eigenvectors.rows : ℝ) / 2) * Real.log (2 * Real.pi)
              else 0)
            + (if eigenvectors.rows < eigenvalues.rows then
                (((eigenvalues.rows : ℝ) - eigenvectors.rows) / 2)
                  * Real.log (2 * Real.pi *
                      ((∑ i ∈ range (eigenvalues.rows - eigenvectors.rows),
                          eigenvalues.data (eigenvectors.rows + i) 0)
                        / ((eigenvalues.rows : ℝ) - eigenvectors.rows)))
              else 0)
          else 0) ∧
      (cvMatPcaDiffs realMath samples avg eigenvalues eigenvectors probs false true).2.data 0 n
        = 0 := by
  have hproj : ∀ d, ∑ j ∈ range samples.rows,
      (samples.data j n - avg.data j 0) * eigenvectors.data d j = 0 := by
    intro d
    apply Finset.sum_eq_zero
    intro j hj
    rw [hfit j (Finset.mem_range.mp hj), sub_self, zero_mul]
  have hcent : ∑ d ∈ range samples.rows, (samples.data d n - avg.data d 0) ^ 2 = 0 := by
    apply Finset.sum_eq_zero
    intro j hj
    rw [hfit j (Finset.mem_range.mp hj), sub_self]
    norm_num
  have hD : difsOf realMath samples avg eigenvalues eigenvectors n = 0 := by
    rw [difsOf_real]
    apply Finset.sum_eq_zero
    intro d hd
    have hne : Real.sqrt (eigenvalues.data d 0) ≠ 0 :=
      ne_of_gt (Real.sqrt_pos.mpr (hpos d (Finset.mem_range.mp hd)))
    rw [hproj d, (div_eq_iff hne).mpr (zero_mul _).symm]
    norm_num
  have hF : dffsOf realMath samples avg eigenvalues eigenvectors n = 0 := by
    rw [dffsOf_real]
    split_ifs with hM
    · have hne : rhoOf eigenvalues eigenvectors.rows ≠ 0 := by
        rw [rhoOf_eq _ _ h.1]
        exact ne_of_gt (hrho hM)
      rw [hcent, (div_eq_iff hne).mpr]
      simp [hproj]
    · rfl
  refine ⟨?_, ?_, ?_, ?_⟩
  · rw [body_DIFS _ _ _ _ _ _ _ _ _ hn, hD]
  · rw [body_DFFS _ _ _ _ _ _ _ _ _ hn, hF]
  · rw [cvMatPcaDiffs_real _ _ _ _ _ _ _ h n hn, hD, hF]
    cases normalize
    · rw [normtermOf_false]
      simp
    · rw [normtermOf_real _ _ h.1]
      simp
  · rw [cvMatPcaDiffs_real _ _ _ _ _ _ _ h n hn, hD, hF, normtermOf_false]
    simp

/-- C5 on the model of the concrete scenario with `normalize = true`, the mean being the
sample `(2, 1, 1/2)` itself: the log-probability is
`-(log 2 + log(2 pi) + (1/2) log(2 pi / 4))`. -/
theorem C5_exact_fit_witness :
    ShapesOk (scenarioSamples : CvMat ℝ) scenarioSamples scenarioEigenvalues
        scenarioEigenvectors scenarioProbs ∧
      (cvMatPcaDiffs realMath scenarioSamples scenarioSamples scenarioEigenvalues
        scenarioEigenvectors scenarioProbs true true).2.data 0 0 =
          - (Real.log 2 + Real.log (2 * Real.pi)
              + (1 / 2) * Real.log (2 * Real.pi * (1 / 4))) := by
  have hs : ShapesOk (scenarioSamples : CvMat ℝ) scenarioSamples scenarioEigenvalues
      scenarioEigenvectors scenarioProbs := by
    simp [ShapesOk, CV_IS_MAT, scenarioSamples, scenarioEigenvalues, scenarioEigenvectors,
      scenarioProbs]
  have h4 : Real.sqrt 4 = 2 := by
    rw [show (4 : ℝ) = 2 ^ 2 by norm_num]
    exact Real.sqrt_sq (by norm_num)
  refine ⟨hs, ?_⟩
  rw [(C5_exact_fit scenarioSamples scenarioSamples scenarioEigenvalues scenarioEigenvectors
    scenarioProbs true 0 hs (by simp [scenarioSamples]) ?_ ?_ (fun j _ => rfl)).2.2.1]
  · simp [scenarioEigenvalues, scenarioEigenvectors, Finset.sum_range_succ, h4]
    norm_num
  · intro d hd
    have hd' : d < 2 := hd
    interval_cases d <;> simp [scenarioEigenvalues]
  · intro _
    norm_num [scenarioEigenvalues, scenarioEigenvectors]

/-- Remark on the hypothesis `rho > 0` of C6: the routine does not test the sign of `rho`,
and on the plane with eigenvalues `(1, -1)`, which is not a model of the specification
(its eigenvalues are not all non-negative), the samples `A = (1, 2)` and `B = (1, 1)` have
the same projection and `||A - mean|| > ||B - mean||`, the call succeeds, yet
`DFFS(A) = -4 < -1 = DFFS(B)` and the log-probability of `A` (`3/2`) exceeds that of `B`
(`0`). -/
theorem monotonicity_needs_positive_rho :
    ShapesOk (planeSamples : CvMat ℝ) planeAvg negRhoEigenvalues planeEigenvectors planeProbs ∧
      (cvProjectPCA planeSamples planeAvg planeEigenvectors
          (cvCreateMat 2 1 : CvMat ℝ)).data 0 0 =
        (cvProjectPCA planeSamples planeAvg planeEigenvectors
          (cvCreateMat 2 1 : CvMat ℝ)).data 1 0 ∧
      Real.sqrt (∑ j ∈ range 2, ((planeSamples : CvMat ℝ).data j 0 - planeAvg.data j 0) ^ 2) >
        Real.sqrt (∑ j ∈ range 2, ((planeSamples : CvMat ℝ).data j 1 - planeAvg.data j 0) ^ 2) ∧
      (cvMatPcaDiffs realMath planeSamples planeAvg negRhoEigenvalues planeEigenvectors
        planeProbs false true).1 = CvStatus.StsOk ∧
      ¬ ((cvMatPcaDiffsBody realMath planeSamples planeAvg negRhoEigenvalues planeEigenvectors
            planeProbs false true).DFFS.data 0 0 ≥
          (cvMatPcaDiffsBody realMath planeSamples planeAvg negRhoEigenvalues planeEigenvectors
            planeProbs false true).DFFS.data 0 1) ∧
      ¬ ((cvMatPcaDiffs realMath planeSamples planeAvg negRhoEigenvalues planeEigenvectors
            planeProbs false true).2.data 0 0 ≤
          (cvMatPcaDiffs realMath planeSamples planeAvg negRhoEigenvalues planeEigenvectors
            planeProbs false true).2.data 0 1) := by
  have hs : ShapesOk (planeSamples : CvMat ℝ) planeAvg negRhoEigenvalues planeEigenvectors
      planeProbs := by
    simp [ShapesOk, CV_IS_MAT, planeSamples, planeAvg, negRhoEigenvalues, planeEigenvectors, planeProbs]
  have hA : dffsOf realMath planeSamples planeAvg negRhoEigenvalues planeEigenvectors 0
      = -4 := by
    rw [dffsOf_real]
    simp [planeSamples, planeAvg, negRhoEigenvalues, planeEigenvectors, rhoOf,
      Finset.sum_range_succ]
    norm_num
  have hB : dffsOf realMath planeSamples planeAvg negRhoEigenvalues planeEigenvectors 1
      = -1 := by
    rw [dffsOf_real]
    simp [planeSamples, planeAvg, negRhoEigenvalues, planeEigenvectors, rhoOf,
      Finset.sum_range_succ]
    norm_num
  have hDA : difsOf realMath planeSamples planeAvg negRhoEigenvalues planeEigenvectors 0
      = 1 := by
    rw [difsOf_real]
    simp [planeSamples, planeAvg, negRhoEigenvalues, planeEigenvectors, Finset.sum_range_succ]
  have hDB : difsOf realMath planeSamples planeAvg negRhoEigenvalues planeEigenvectors 1
      = 1 := by
    rw [difsOf_real]
    simp [planeSamples, planeAvg, negRhoEigenvalues, planeEigenvectors, Finset.sum_range_succ]
  have h0 : (0 : ℕ) < (planeSamples : CvMat ℝ).cols := by simp [planeSamples]
  have h1 : (1 : ℕ) < (planeSamples : CvMat ℝ).cols := by simp [planeSamples]
  refine ⟨hs, ?_, ?_, ?_, ?_, ?_⟩
  · simp [cvProjectPCA, planeSamples, planeAvg, planeEigenvectors, Finset.sum_range_succ]
  · apply Real.sqrt_lt_sqrt
    · exact Finset.sum_nonneg (fun d _ => sq_nonneg _)
    · simp [planeSamples, planeAvg, Finset.sum_range_succ]
      norm_num
  · rw [cvMatPcaDiffs_of_shapesOk _ _ _ _ _ _ _ _ hs]
  · rw [body_DFFS _ _ _ _ _ _ _ _ _ h0, body_DFFS _ _ _ _ _ _ _ _ _ h1, hA, hB]
    norm_num
  · rw [cvMatPcaDiffs_real _ _ _ _ _ _ _ hs 0 h0, cvMatPcaDiffs_real _ _ _ _ _ _ _ hs 1 h1,
      hA, hB, hDA, hDB, normtermOf_false]
    norm_num

/-- C7, as stated, fails on the plane model with eigenvalues `(1, -1)`: `nEig = 2 > M = 1`
and the average of the discarded eigenvalues is `rho = -1 <= 0`, yet the call ends with
status `StsOk` and writes the values `3/2` and `0`. -/
theorem C7_counterexample_no_error :
    ShapesOk (planeSamples : CvMat ℝ) planeAvg negRhoEigenvalues planeEigenvectors planeProbs ∧
      (planeEigenvectors : CvMat ℝ).rows < (negRhoEigenvalues : CvMat ℝ).rows ∧
      rhoOf (negRhoEigenvalues : CvMat ℝ) (planeEigenvectors : CvMat ℝ).rows = -1 ∧
      (cvMatPcaDiffs realMath planeSamples planeAvg negRhoEigenvalues planeEigenvectors
        planeProbs false true).1 = CvStatus.StsOk ∧
      (cvMatPcaDiffs realMath planeSamples planeAvg negRhoEigenvalues planeEigenvectors
        planeProbs false true).2.data 0 0 = 3 / 2 ∧
      (cvMatPcaDiffs realMath planeSamples planeAvg negRhoEigenvalues planeEigenvectors
        planeProbs false true).2.data 0 1 = 0 := by
  have hs : ShapesOk (planeSamples : CvMat ℝ) planeAvg negRhoEigenvalues planeEigenvectors
      planeProbs := by
    simp [ShapesOk, CV_IS_MAT, planeSamples, planeAvg, negRhoEigenvalues, planeEigenvectors, planeProbs]
  have h0 : (0 : ℕ) < (planeSamples : CvMat ℝ).cols := by simp [planeSamples]
  have h1 : (1 : ℕ) < (planeSamples : CvMat ℝ).cols := by simp [planeSamples]
  refine ⟨hs, by simp [planeEigenvectors, negRhoEigenvalues], ?_, ?_, ?_, ?_⟩
  · simp [rhoOf, negRhoEigenvalues, planeEigenvectors]
  · rw [cvMatPcaDiffs_of_shapesOk _ _ _ _ _ _ _ _ hs]
  · rw [cvMatPcaDiffs_real _ _ _ _ _ _ _ hs 0 h0, difsOf_real, dffsOf_real, normtermOf_false]
    simp [planeSamples, planeAvg, negRhoEigenvalues, planeEigenvectors, rhoOf,
      Finset.sum_range_succ]
    norm_num
  · rw [cvMatPcaDiffs_real _ _ _ _ _ _ _ hs 1 h1, difsOf_real, dffsOf_real, normtermOf_false]
    simp [planeSamples, planeAvg, negRhoEigenvalues, planeEigenvectors, rhoOf,
      Finset.sum_range_succ]
    norm_num

/-- C7 (amended): the routine has no test on `rho`.  For a well-shaped call with
`nEig > M` and `rho <= 0` the call ends with status `StsOk`; when `rho < 0` each `DFFS[n]`
is the residual `||sample_n - mean||^2 - ||proj[n]||^2` divided by `rho`, and the value
written at `n` with `logprob = true` is `-DIFS[n]/2 - DFFS[n]/2 - normterm`. -/
theorem C7_no_guard_on_rho
    (samples avg eigenvalues eigenvectors probs : CvMat ℝ) (normalize logprob : Bool)
    (h : ShapesOk samples avg eigenvalues eigenvectors probs)
    (hM : eigenvectors.rows < eigenvalues.rows)
    (hrho : (∑ i ∈ range (eigenvalues.rows - eigenvectors.rows),
              eigenvalues.data (eigenvectors.rows + i) 0)
            / ((eigenvalues.rows : ℝ) - eigenvectors.rows) ≤ 0) :
    (cvMatPcaDiffs realMath samples avg eigenvalues eigenvectors probs normalize logprob).1
        = CvStatus.StsOk ∧
      ((∑ i ∈ range (eigenvalues.rows - eigenvectors.rows),
              eigenvalues.data (eigenvectors.rows + i) 0)
            / ((eigenvalues.rows : ℝ) - eigenvectors.rows) < 0 →
        ∀ n, n < samples.cols →
          (cvMatPcaDiffsBody realMath samples avg eigenvalues eigenvectors probs normalize
              true).DFFS.data 0 n =
            ((∑ j ∈ range samples.rows, (samples.data j n - avg.data j 0) ^ 2)
                - ∑ d ∈ range eigenvectors.rows,
                    (∑ j ∈ range samples.rows,
                      eigenvectors.data d j * (samples.data j n - avg.data j 0)) ^ 2)
              / ((∑ i ∈ range (eigenvalues.rows - eigenvectors.rows),
                    eigenvalues.data (eigenvectors.rows + i) 0)
                  / ((eigenvalues.rows : ℝ) - eigenvectors.rows)) ∧
          (cvMatPcaDiffs realMath samples avg eigenvalues eigenvectors probs normalize
              true).2.data 0 n =
            - (cvMatPcaDiffsBody realMath samples avg eigenvalues eigenvectors probs normalize
                true).DIFS.data 0 n / 2
            - (cvMatPcaDiffsBody realMath samples avg eigenvalues eigenvectors probs normalize
                true).DFFS.data 0 n / 2
            - (cvMatPcaDiffsBody realMath samples avg eigenvalues eigenvectors probs normalize
                true).normterm) := by
  refine ⟨by rw [cvMatPcaDiffs_of_shapesOk _ _ _ _ _ _ _ _ h], ?_⟩
  rcases lt_or_eq_of_le hrho with _ | hzero
  swap
  · intro hneg
    rw [hzero] at hneg
    exact absurd hneg (lt_irrefl 0)
  intro _ n hn
  refine ⟨?_, ?_⟩
  · rw [body_DFFS _ _ _ _ _ _ _ _ _ hn, dffsOf_real, if_pos hM, rhoOf_eq _ _ h.1]
    simp only [mul_comm (eigenvectors.data _ _)]
  · rw [cvMatPcaDiffs_real _ _ _ _ _ _ _ h n hn, body_DFFS _ _ _ _ _ _ _ _ _ hn,
      body_DIFS _ _ _ _ _ _ _ _ _ hn, body_normterm]
    simp only [if_true]
    ring

/-- C7 (amended) on the plane model with eigenvalues `(1, -1)`. -/
theorem C7_no_guard_on_rho_witness :
    ShapesOk (planeSamples : CvMat ℝ) planeAvg negRhoEigenvalues planeEigenvectors planeProbs ∧
      (cvMatPcaDiffs realMath planeSamples planeAvg negRhoEigenvalues planeEigenvectors
        planeProbs true false).1 = CvStatus.StsOk := by
  have hs : ShapesOk (planeSamples : CvMat ℝ) planeAvg negRhoEigenvalues planeEigenvectors
      planeProbs := by
    simp [ShapesOk, CV_IS_MAT, planeSamples, planeAvg, negRhoEigenvalues, planeEigenvectors, planeProbs]
  refine ⟨hs, (C7_no_guard_on_rho planeSamples planeAvg negRhoEigenvalues planeEigenvectors
    planeProbs true false hs (by simp [planeEigenvectors, negRhoEigenvalues]) ?_).1⟩
  norm_num [negRhoEigenvalues, planeEigenvectors]

/-- C8: when the mean is not `D x 1`, or the eigenvector matrix does not have `D` columns,
or `probs` is not `1 x N`, the call fails (with `CV_StsInternal`, the code of a failed
assertion) and the buffer `probs` it returns is the one it was given: no cell is
written. -/
theorem C8_shape_validation_atomic
    (samples avg eigenvalues eigenvectors probs : CvMat ℝ) (normalize logprob : Bool)
    (hbad : ¬ (avg.rows = samples.rows ∧ avg.cols = 1) ∨ eigenvectors.cols ≠ samples.rows ∨
      ¬ (probs.rows = 1 ∧ probs.cols = samples.cols)) :
    (cvMatPcaDiffs realMath samples avg eigenvalues eigenvectors probs normalize logprob).1
        ≠ CvStatus.StsOk ∧
      (eigenvectors.rows ≤ eigenvalues.rows →
        (cvMatPcaDiffs realMath samples avg eigenvalues eigenvectors probs normalize logprob).1
          = CvStatus.StsInternal) ∧
      (cvMatPcaDiffs realMath samples avg eigenvalues eigenvectors probs normalize logprob).2
        = probs := by
  have hfail : ¬ (CV_IS_MAT samples ∧ CV_IS_MAT avg ∧ CV_IS_MAT eigenvalues ∧
      CV_IS_MAT eigenvectors ∧ (samples.rows = avg.rows ∧ 1 = avg.cols) ∧
      samples.rows = eigenvectors.cols ∧ (1 = probs.rows ∧ samples.cols = probs.cols)) := by
    rintro ⟨_, _, _, _, ⟨a1, a2⟩, b, c1, c2⟩
    rcases hbad with hb | hb | hb
    · exact hb ⟨a1.symm, a2.symm⟩
    · exact hb b.symm
    · exact hb ⟨c1.symm, c2.symm⟩
  rw [cvMatPcaDiffs_of_failed_assert realMath samples avg eigenvalues eigenvectors probs
    normalize logprob hfail]
  exact ⟨fun hx => CvStatus.noConfusion hx, fun _ => rfl, rfl⟩

/-- C8 on the concrete scenario with the `1 x 1` buffer passed as the mean. -/
theorem C8_shape_validation_atomic_witness :
    (cvMatPcaDiffs realMath scenarioSamples scenarioProbs scenarioEigenvalues
        scenarioEigenvectors scenarioProbs true false).1 = CvStatus.StsInternal ∧
      (cvMatPcaDiffs realMath scenarioSamples scenarioProbs scenarioEigenvalues
        scenarioEigenvectors scenarioProbs true false).2 = scenarioProbs :=
  ⟨(C8_shape_validation_atomic scenarioSamples scenarioProbs scenarioEigenvalues
      scenarioEigenvectors scenarioProbs true false
      (Or.inl (by simp [scenarioSamples, scenarioProbs]))).2.1
      (by simp [scenarioEigenvalues, scenarioEigenvectors]),
    (C8_shape_validation_atomic scenarioSamples scenarioProbs scenarioEigenvalues
      scenarioEigenvectors scenarioProbs true false
      (Or.inl (by simp [scenarioSamples, scenarioProbs]))).2.2⟩

/-- C9: for a well-shaped call on a model with `M = nEig`, every `DFFS[n]` is `0`, the
block `// distance from feature space` changes neither `DFFS` nor `normterm` (so `rho` is
not computed and no residual normalization is added), and the log-probability written at
`n` is `-DIFS[n]/2` minus the retained-subspace normalization term only. -/
theorem C9_full_basis
    (samples avg eigenvalues eigenvectors probs : CvMat ℝ) (normalize : Bool) (n : ℕ)
    (h : ShapesOk samples avg eigenvalues eigenvectors probs) (hn : n < samples.cols)
    (hfull : eigenvectors.rows = eigenvalues.rows) :
    (cvMatPcaDiffsBody realMath samples avg eigenvalues eigenvectors probs normalize
        true).DFFS.data 0 n = 0 ∧
      (∀ (proj DFFS : CvMat ℝ) (normterm : ℝ),
        distanceFromFeatureSpace realMath samples avg eigenvalues proj samples.rows
          samples.cols eigenvectors.rows eigenvalues.rows normalize DFFS normterm
          = (DFFS, normterm)) ∧
      (cvMatPcaDiffs realMath samples avg eigenvalues eigenvectors probs normalize true).2.data 0 n =
        - (cvMatPcaDiffsBody realMath samples avg eigenvalues eigenvectors probs normalize
            true).DIFS.data 0 n / 2
        - (if normalize = true ∧ 0 < eigenvectors.rows then
            ∑ d ∈ range eigenvectors.rows, Real.log (Real.sqrt (eigenvalues.data d 0))
              + ((eigenvectors.rows : ℝ) / 2) * Real.log (2 * Real.pi)
          else 0) := by
  have hlt : ¬ eigenvectors.rows < eigenvalues.rows := by omega
  have hF : dffsOf realMath samples avg eigenvalues eigenvectors n = 0 := by
    rw [dffsOf, if_neg hlt]
  refine ⟨?_, ?_, ?_⟩
  · rw [body_DFFS _ _ _ _ _ _ _ _ _ hn, hF]
  · intro proj DFFS normterm
    unfold distanceFromFeatureSpace
    rw [if_neg hlt]
  · rw [cvMatPcaDiffs_real _ _ _ _ _ _ _ h n hn, body_DIFS _ _ _ _ _ _ _ _ _ hn, hF]
    cases normalize
    · rw [normtermOf_false]
      simp
      ring
    · rw [normtermOf_real _ _ h.1]
      simp [hlt]
      ring

/-- C9 on the two retained axes of the concrete scenario with eigenvalues `(4, 1)`. -/
theorem C9_full_basis_witness :
    ShapesOk (scenarioSamples : CvMat ℝ) scenarioAvg fullBasisEigenvalues scenarioEigenvectors
        scenarioProbs ∧
      (cvMatPcaDiffsBody realMath scenarioSamples scenarioAvg fullBasisEigenvalues
        scenarioEigenvectors scenarioProbs true true).DFFS.data 0 0 = 0 := by
  have hs : ShapesOk (scenarioSamples : CvMat ℝ) scenarioAvg fullBasisEigenvalues
      scenarioEigenvectors scenarioProbs := by
    simp [ShapesOk, CV_IS_MAT, scenarioSamples, scenarioAvg, fullBasisEigenvalues, scenarioEigenvectors,
      scenarioProbs]
  exact ⟨hs, (C9_full_basis scenarioSamples scenarioAvg fullBasisEigenvalues
    scenarioEigenvectors scenarioProbs true 0 hs (by simp [scenarioSamples]) rfl).1⟩

/-- C10, as stated, fails on the concrete scenario without retained axes (`M = 0`,
`nEig = 3`): the claim gives the log-probability `-((21/4) / (7/4)) / 2 = -3/2` at index
`0`, but the assertion `CV_IS_MAT(eigenvectors)` fails, the call ends with
`CV_StsInternal` and the buffer keeps the `0` it held. -/
theorem C10_counterexample_zero_basis_rejected :
    (zeroBasisEigenvectors : CvMat ℝ).rows = 0 ∧
      0 < (scenarioEigenvalues : CvMat ℝ).rows ∧
      - ((∑ j ∈ range 3, ((scenarioSamples : CvMat ℝ).data j 0 - scenarioAvg.data j 0) ^ 2)
          / ((∑ i ∈ range 3, (scenarioEigenvalues : CvMat ℝ).data i 0) / 3)) / 2 = -3 / 2 ∧
      cvMatPcaDiffs realMath scenarioSamples scenarioAvg scenarioEigenvalues
          zeroBasisEigenvectors scenarioProbs false true
        = (CvStatus.StsInternal, scenarioProbs) ∧
      (cvMatPcaDiffs realMath scenarioSamples scenarioAvg scenarioEigenvalues
          zeroBasisEigenvectors scenarioProbs false true).2.data 0 0 = 0 := by
  have hfail : cvMatPcaDiffs realMath scenarioSamples scenarioAvg scenarioEigenvalues
      zeroBasisEigenvectors scenarioProbs false true
        = (CvStatus.StsInternal, scenarioProbs) := by
    apply cvMatPcaDiffs_of_failed_assert
    rintro ⟨_, _, _, ⟨hrows, _⟩, _⟩
    exact absurd hrows (by simp [zeroBasisEigenvectors])
  refine ⟨rfl, by simp [scenarioEigenvalues], ?_, hfail, ?_⟩
  · simp [scenarioSamples, scenarioAvg, scenarioEigenvalues, Finset.sum_range_succ]
    norm_num
  · rw [hfail]
    rfl

/-- C10 (amended): a model with `M = 0` is rejected: for every batch and both flags the
assertion `CV_IS_MAT(eigenvectors)` fails, the call ends with `CV_StsInternal` and `probs`
is returned unchanged.  The body alone has the zero-basis property: run with `M = 0` it
leaves every `DIFS[n]` at `0`, its block `// distance in feature space` changes neither
`DIFS` nor `normterm`, and when `nEig > 0` the value it computes for index `n` with
`logprob = true` is `-(||sample_n - mean||^2 / rho)/2` minus the residual normalization
term `(nEig/2) log(2 pi rho)` only, `rho` being the average of all `nEig` eigenvalues. -/
theorem C10_zero_basis_rejected
    (samples avg eigenvalues eigenvectors probs : CvMat ℝ) (normalize : Bool) (n : ℕ)
    (hn : n < samples.cols) (hzero : eigenvectors.rows = 0) :
    (∀ logprob : Bool,
        cvMatPcaDiffs realMath samples avg eigenvalues eigenvectors probs normalize logprob
          = (CvStatus.StsInternal, probs)) ∧
      (cvMatPcaDiffsBody realMath samples avg eigenvalues eigenvectors probs normalize
        true).DIFS.data 0 n = 0 ∧
      (∀ (proj DIFS : CvMat ℝ) (normterm : ℝ),
        distanceInFeatureSpace realMath eigenvalues proj samples.cols eigenvectors.rows
          normalize DIFS normterm = (DIFS, normterm)) ∧
      (0 < eigenvalues.rows →
        (cvMatPcaDiffsBody realMath samples avg eigenvalues eigenvectors probs normalize
            true).probs.data 0 n =
          - ((∑ j ∈ range samples.rows, (samples.data j n - avg.data j 0) ^ 2)
              / ((∑ i ∈ range eigenvalues.rows, eigenvalues.data i 0) / (eigenvalues.rows : ℝ)))
            / 2
          - (if normalize = true then
              ((eigenvalues.rows : ℝ) / 2)
                * Real.log (2 * Real.pi *
                    ((∑ i ∈ range eigenvalues.rows, eigenvalues.data i 0)
                      / (eigenvalues.rows : ℝ)))
            else 0)) := by
  have hle : eigenvectors.rows ≤ eigenvalues.rows := by omega
  have hD : difsOf realMath samples avg eigenvalues eigenvectors n = 0 := by
    rw [difsOf, hzero]
    simp
  refine ⟨?_, ?_, ?_, ?_⟩
  · intro logprob
    apply cvMatPcaDiffs_of_failed_assert
    rintro ⟨_, _, _, ⟨hrows, _⟩, _⟩
    omega
  · rw [body_DIFS _ _ _ _ _ _ _ _ _ hn, hD]
  · intro proj DIFS normterm
    unfold distanceInFeatureSpace
    rw [hzero]
    simp
  · intro hpos
    have hlt : eigenvectors.rows < eigenvalues.rows := by omega
    rw [body_probs, hD, dffsOf_real, if_pos hlt, rhoOf_eq _ _ hle]
    cases normalize
    · rw [normtermOf_false]
      simp [hzero, hn]
      ring
    · rw [normtermOf_real _ _ hle]
      simp [hzero, hpos, hn]
      ring

/-- C10 (amended) on the concrete scenario without retained axes: the call is rejected,
and the body alone computes `-(21/4) / (7/4) / 2 = -3/2`. -/
theorem C10_zero_basis_rejected_witness :
    cvMatPcaDiffs realMath scenarioSamples scenarioAvg scenarioEigenvalues
          zeroBasisEigenvectors scenarioProbs false true
        = (CvStatus.StsInternal, scenarioProbs) ∧
      (cvMatPcaDiffsBody realMath scenarioSamples scenarioAvg scenarioEigenvalues
        zeroBasisEigenvectors scenarioProbs false true).probs.data 0 0 = -3 / 2 := by
  refine ⟨(C10_zero_basis_rejected scenarioSamples scenarioAvg scenarioEigenvalues
    zeroBasisEigenvectors scenarioProbs false 0 (by simp [scenarioSamples]) rfl).1 true, ?_⟩
  rw [(C10_zero_basis_rejected scenarioSamples scenarioAvg scenarioEigenvalues
    zeroBasisEigenvectors scenarioProbs false 0 (by simp [scenarioSamples]) rfl).2.2.2
    (by simp [scenarioEigenvalues])]
  simp [scenarioSamples, scenarioAvg, scenarioEigenvalues, Finset.sum_range_succ]
  norm_num

/-- What `cvBox32fFromRect32f` returns, for any rotation matrix: the size and the angle of
`rect`, the first centre coordinate from the unrotated centre, and the second centre
coordinate from the already rotated first coordinate. -/
theorem cvBox32fFromRect32f_eq {K : Type} [Field K]
    (cv2DRotationMatrix : K × K → K → K → CvMat K → CvMat K) (rect : CvRect32f K) :
    cvBox32fFromRect32f cv2DRotationMatrix rect =
      ⟨(cv2DRotationMatrix (rect.x, rect.y) rect.angle 1 (cvCreateMat 2 3)).data 0 0
            * ((2 * rect.x + rect.width - 1) / 2)
          + (cv2DRotationMatrix (rect.x, rect.y) rect.angle 1 (cvCreateMat 2 3)).data 0 1
            * ((2 * rect.y + rect.height - 1) / 2)
          + (cv2DRotationMatrix (rect.x, rect.y) rect.angle 1 (cvCreateMat 2 3)).data 0 2,
        (cv2DRotationMatrix (rect.x, rect.y) rect.angle 1 (cvCreateMat 2 3)).data 1 0
            * ((cv2DRotationMatrix (rect.x, rect.y) rect.angle 1 (cvCreateMat 2 3)).data 0 0
                  * ((2 * rect.x + rect.width - 1) / 2)
                + (cv2DRotationMatrix (rect.x, rect.y) rect.angle 1 (cvCreateMat 2 3)).data 0 1
                  * ((2 * rect.y + rect.height - 1) / 2)
                + (cv2DRotationMatrix (rect.x, rect.y) rect.angle 1 (cvCreateMat 2 3)).data 0 2)
          + (cv2DRotationMatrix (rect.x, rect.y) rect.angle 1 (cvCreateMat 2 3)).data 1 1
            * ((2 * rect.y + rect.height - 1) / 2)
          + (cv2DRotationMatrix (rect.x, rect.y) rect.angle 1 (cvCreateMat 2 3)).data 1 2,
        rect.width, rect.height, rect.angle⟩ := rfl

/-- What `cvRect32fFromBox32f` returns, for any rotation matrix. -/
theorem cvRect32fFromBox32f_eq {K : Type} [Field K]
    (cv2DRotationMatrix : K × K → K → K → CvMat K → CvMat K) (box : CvBox32f K) :
    cvRect32fFromBox32f cv2DRotationMatrix box =
      ⟨(cv2DRotationMatrix (box.cx, box.cy) box.angle 1 (cvCreateMat 2 3)).data 0 0
            * ((2 * box.cx + 1 - box.width) / 2)
          + (cv2DRotationMatrix (box.cx, box.cy) box.angle 1 (cvCreateMat 2 3)).data 0 1
            * ((2 * box.cy + 1 - box.height) / 2)
          + (cv2DRotationMatrix (box.cx, box.cy) box.angle 1 (cvCreateMat 2 3)).data 0 2,
        (cv2DRotationMatrix (box.cx, box.cy) box.angle 1 (cvCreateMat 2 3)).data 1 0
            * ((cv2DRotationMatrix (box.cx, box.cy) box.angle 1 (cvCreateMat 2 3)).data 0 0
                  * ((2 * box.cx + 1 - box.width) / 2)
                + (cv2DRotationMatrix (box.cx, box.cy) box.angle 1 (cvCreateMat 2 3)).data 0 1
                  * ((2 * box.cy + 1 - box.height) / 2)
                + (cv2DRotationMatrix (box.cx, box.cy) box.angle 1 (cvCreateMat 2 3)).data 0 2)
          + (cv2DRotationMatrix (box.cx, box.cy) box.angle 1 (cvCreateMat 2 3)).data 1 1
            * ((2 * box.cy + 1 - box.height) / 2)
          + (cv2DRotationMatrix (box.cx, box.cy) box.angle 1 (cvCreateMat 2 3)).data 1 2,
        box.width, box.height, box.angle⟩ := rfl

/-- The rotation matrix about the origin by 90 degrees is `(0, 1, 0; -1, 0, 0)`. -/
theorem rotationMatrix2D_quarterTurn (i j : ℕ) :
    (rotationMatrix2D Real.cos Real.sin Real.pi ((0 : ℝ), (0 : ℝ)) 90 1
        (cvCreateMat 2 3)).data i j =
      if i = 0 then (if j = 1 then 1 else 0) else (if j = 0 then -1 else 0) := by
  have ha : (90 : ℝ) * (Real.pi / 180) = Real.pi / 2 := by ring
  simp only [rotationMatrix2D, ha, Real.cos_pi_div_two, Real.sin_pi_div_two]
  by_cases hi : i = 0 <;> by_cases hj0 : j = 0 <;> by_cases hj1 : j = 1 <;>
    simp [hi, hj0, hj1]

/-- C12 (the code at the failing input): for the `3 x 1` rectangle with corner `(0, 0)`
turned by 90 degrees, the unrotated centre is `(1, 0)` and the rotation matrix about the
corner is `(0, 1, 0; -1, 0, 0)`, so the image of the centre is `(0, -1)`; the code returns
the centre `(0, 0)`, because `cy` is computed from the already rotated `cx`.  Likewise for
the `3 x 1` box centred at `(0, 0)` turned by 90 degrees the unrotated corner is `(-1, 0)`,
its image is `(0, 1)`, and the code returns the corner `(0, 0)`. -/
theorem C12_second_coordinate_uses_rotated_first :
    cvBox32fFromRect32f (rotationMatrix2D Real.cos Real.sin Real.pi)
          (quarterTurnRect : CvRect32f ℝ)
        = ⟨0, 0, 3, 1, 90⟩ ∧
      (rotationMatrix2D Real.cos Real.sin Real.pi ((0 : ℝ), (0 : ℝ)) 90 1
            (cvCreateMat 2 3)).data 1 0 * ((2 * 0 + 3 - 1) / 2)
          + (rotationMatrix2D Real.cos Real.sin Real.pi ((0 : ℝ), (0 : ℝ)) 90 1
            (cvCreateMat 2 3)).data 1 1 * ((2 * 0 + 1 - 1) / 2)
          + (rotationMatrix2D Real.cos Real.sin Real.pi ((0 : ℝ), (0 : ℝ)) 90 1
            (cvCreateMat 2 3)).data 1 2 = -1 ∧
      cvRect32fFromBox32f (rotationMatrix2D Real.cos Real.sin Real.pi)
          (quarterTurnBox : CvBox32f ℝ)
        = ⟨0, 0, 3, 1, 90⟩ ∧
      (rotationMatrix2D Real.cos Real.sin Real.pi ((0 : ℝ), (0 : ℝ)) 90 1
            (cvCreateMat 2 3)).data 1 0 * ((2 * 0 + 1 - 3) / 2)
          + (rotationMatrix2D Real.cos Real.sin Real.pi ((0 : ℝ), (0 : ℝ)) 90 1
            (cvCreateMat 2 3)).data 1 1 * ((2 * 0 + 1 - 1) / 2)
          + (rotationMatrix2D Real.cos Real.sin Real.pi ((0 : ℝ), (0 : ℝ)) 90 1
            (cvCreateMat 2 3)).data 1 2 = 1 := by
  refine ⟨?_, ?_, ?_, ?_⟩
  · rw [cvBox32fFromRect32f_eq]
    simp only [quarterTurnRect, rotationMatrix2D_quarterTurn]
    norm_num
  · simp only [rotationMatrix2D_quarterTurn]
    norm_num
  · rw [cvRect32fFromBox32f_eq]
    simp only [quarterTurnBox, rotationMatrix2D_quarterTurn]
    norm_num
  · simp only [rotationMatrix2D_quarterTurn]
    norm_num

end Claims

end PcaDiffs
